import Mathlib

/-!
Verification development for nx2elf (src/nx2elf.cpp), a converter from
Nintendo Switch NSO/NRO/raw-MOD executable containers to ELF shared objects.

The C++ source is shallowly embedded: byte buffers (files, the flat
memory image, the emitted ELF) are modelled as total functions
`Nat → Nat` (each value reduced mod 256 at every write) together with an
explicit size; packed structs are read through little-endian accessors at
the offsets of their C layouts; machine-integer truncation is written as
explicit `% 2^32` / `% 2^64` where the C code narrows.  The LZ4 block
decoder is an external collaborator of the program and is taken as an
oracle parameter.  Helper routines that live in headers not present in
the repository snapshot (memmem, memmem_m, memmemr, ALIGN_UP, the
GnuBuildId needle layout and ElfEHInfo::MeasureFrame) are modelled from
the specification, and are marked as such in their doc comments.
-/

set_option maxRecDepth 10000

/-! ### Byte buffers and little-endian accessors -/

/-- A byte buffer: a total function from offsets to byte values.
All writers store values reduced mod 256. -/
abbrev Bytes := Nat → Nat

/-- The all-zero buffer (`std::vector<u8>(n)` zero-initialises). -/
def zeroBytes : Bytes := fun _ => 0

def readU8 (b : Bytes) (i : Nat) : Nat := b i % 256

def readU16 (b : Bytes) (i : Nat) : Nat := readU8 b i + 256 * readU8 b (i + 1)

def readU32 (b : Bytes) (i : Nat) : Nat :=
  readU8 b i + 256 * readU8 b (i + 1) + 65536 * readU8 b (i + 2) +
    16777216 * readU8 b (i + 3)

def readU64 (b : Bytes) (i : Nat) : Nat :=
  readU32 b i + 4294967296 * readU32 b (i + 4)

/-- Read a little-endian signed 32-bit value (two's complement). -/
def readS32 (b : Bytes) (i : Nat) : Int :=
  let v := readU32 b i
  if v < 2147483648 then (v : Int) else (v : Int) - 4294967296

/-- Byte `k` of the little-endian encoding of `v`. -/
def leByte (v k : Nat) : Nat := v / 256 ^ k % 256

def writeU8 (b : Bytes) (i v : Nat) : Bytes :=
  fun j => if j = i then v % 256 else b j

def writeU32 (b : Bytes) (i v : Nat) : Bytes :=
  fun j => if i ≤ j ∧ j < i + 4 then leByte v (j - i) else b j

def writeU64 (b : Bytes) (i v : Nat) : Bytes :=
  fun j => if i ≤ j ∧ j < i + 8 then leByte v (j - i) else b j

/-- `memcpy(&b[dst], &src[srcOff], len)`. -/
def writeBytes (b : Bytes) (dst : Nat) (src : Bytes) (srcOff len : Nat) : Bytes :=
  fun j => if dst ≤ j ∧ j < dst + len then src (srcOff + (j - dst)) % 256 else b j

/-- `ALIGN_UP(x, a)`.  Modelled from the spec: the macro lives in a header
not present in the snapshot; for the power-of-two alignments the program
uses it rounds `x` up to the next multiple of `a`. -/
def alignUp (x a : Nat) : Nat := (x + a - 1) / a * a

theorem readU8_lt (b : Bytes) (i : Nat) : readU8 b i < 256 := Nat.mod_lt _ (by omega)

theorem readU32_lt (b : Bytes) (i : Nat) : readU32 b i < 4294967296 := by
  have h0 := readU8_lt b i
  have h1 := readU8_lt b (i + 1)
  have h2 := readU8_lt b (i + 2)
  have h3 := readU8_lt b (i + 3)
  unfold readU32
  omega

theorem readU64_lt (b : Bytes) (i : Nat) : readU64 b i < 18446744073709551616 := by
  have h0 := readU32_lt b i
  have h1 := readU32_lt b (i + 4)
  unfold readU64
  omega

/-- Recombining the four little-endian bytes of `v` yields `v % 2^32`. -/
theorem leByte_recomb (v : Nat) :
    leByte v 0 % 256 + 256 * (leByte v 1 % 256) + 65536 * (leByte v 2 % 256) +
      16777216 * (leByte v 3 % 256) = v % 4294967296 := by
  simp only [leByte]
  omega

/-- Reading a byte inside the range of a `writeBytes` returns the source byte. -/
theorem writeBytes_inside (b : Bytes) (dst : Nat) (src : Bytes) (srcOff len j : Nat)
    (h1 : dst ≤ j) (h2 : j < dst + len) :
    writeBytes b dst src srcOff len j = src (srcOff + (j - dst)) % 256 := by
  unfold writeBytes
  rw [if_pos ⟨h1, h2⟩]

/-- Reading a byte outside the range of a `writeBytes` sees through it. -/
theorem writeBytes_outside (b : Bytes) (dst : Nat) (src : Bytes) (srcOff len j : Nat)
    (h : j < dst ∨ dst + len ≤ j) :
    writeBytes b dst src srcOff len j = b j := by
  unfold writeBytes
  rw [if_neg (by omega)]

/-! ### Standard ELF constants (from the system `elf.h`; the repository
snapshot does not contain its private `elf.h`, so the industry-standard
values are used). -/

def SHN_UNDEF : Nat := 0
def SHN_LORESERVE : Nat := 0xff00
def SHT_NULL : Nat := 0
def SHT_PROGBITS : Nat := 1
def SHT_STRTAB : Nat := 3
def SHT_RELA : Nat := 4
def SHT_HASH : Nat := 5
def SHT_DYNAMIC : Nat := 6
def SHT_NOTE : Nat := 7
def SHT_NOBITS : Nat := 8
def SHT_DYNSYM : Nat := 11
def SHT_INIT_ARRAY : Nat := 14
def SHT_FINI_ARRAY : Nat := 15
def SHT_GNU_HASH : Nat := 0x6ffffff6
def SHF_WRITE : Nat := 1
def SHF_ALLOC : Nat := 2
def SHF_EXECINSTR : Nat := 4
def SHF_INFO_LINK : Nat := 0x40
def PT_LOAD : Nat := 1
def PT_DYNAMIC : Nat := 2
def PT_GNU_EH_FRAME : Nat := 0x6474e550
def PF_X : Nat := 1
def PF_W : Nat := 2
def PF_R : Nat := 4
def ET_DYN : Nat := 3
def EM_AARCH64 : Nat := 183
def DT_PLTRELSZ : Nat := 2
def DT_PLTGOT : Nat := 3
def DT_HASH : Nat := 4
def DT_STRTAB : Nat := 5
def DT_SYMTAB : Nat := 6
def DT_RELA : Nat := 7
def DT_RELASZ : Nat := 8
def DT_STRSZ : Nat := 10
def DT_INIT : Nat := 12
def DT_FINI : Nat := 13
def DT_JMPREL : Nat := 23
def DT_INIT_ARRAY : Nat := 25
def DT_FINI_ARRAY : Nat := 26
def DT_INIT_ARRAYSZ : Nat := 27
def DT_FINI_ARRAYSZ : Nat := 28
def DT_GNU_HASH : Nat := 0x6ffffef5
def R_AARCH64_GLOB_DAT : Nat := 1025
def R_AARCH64_JUMP_SLOT : Nat := 1026
def STB_LOCAL : Nat := 0
def STT_SECTION : Nat := 3

/-! ### StringTable (src/nx2elf.cpp lines 65-95)

The C++ keys the map by `const char*`; all call sites use string
literals, which the toolchain pools, so the content-keyed model below
matches the observed behaviour. -/

structure StringTable where
  entries : List (String × Nat)
  watermark : Nat

namespace StringTable

def lookupEntry (t : StringTable) (s : String) : Option Nat :=
  (t.entries.find? (fun e => e.1 = s)).map (·.2)

/-- `AddString`: insert if absent, assigning the current watermark and
advancing it by `strlen + 1`. -/
def addString (t : StringTable) (s : String) : StringTable :=
  if (t.lookupEntry s).isSome then t
  else { entries := t.entries ++ [(s, t.watermark)],
         watermark := t.watermark + s.length + 1 }

/-- `GetOffset`: 0 when the string was never added. -/
def getOffset (t : StringTable) (s : String) : Nat :=
  (t.lookupEntry s).getD 0

/-- The constructor runs `AddString("")` on an empty table. -/
def init : StringTable := addString { entries := [], watermark := 0 } ""

/-- `GetBuffer`: a buffer of `watermark` bytes with each entry strcpy'd at
its offset (string bytes followed by a NUL). -/
def bufferBytes (t : StringTable) : Bytes :=
  t.entries.foldl
    (fun b e =>
      writeBytes b e.2 (fun k => (e.1.toUTF8.toList.getD k 0).toNat) 0 (e.1.length + 1))
    zeroBytes

/-- `Finalize` records `size = ALIGN_UP(buffer.size(), 0x10)`. -/
def finalSize (t : StringTable) : Nat := alignUp t.watermark 0x10

end StringTable

/-! ### Container structures (src/nx2elf.cpp lines 108-165)

`NsoHeader` is 0x100 bytes; field offsets follow the packed C layout:
magic at 0, field_4 at 4, field_8 at 8, flags at 0xc, segments[3] at
0x10 (16 bytes each), gnu_build_id at 0x40 (32 bytes),
segment_file_sizes[3] at 0x60, field_6c[9] at 0x6c, dynstr at 0x90,
dynsym at 0x98, segment_digests at 0xa0 (96 bytes). -/

structure SegmentHeader where
  fileOffset : Nat
  memOffset : Nat
  memSize : Nat
  bssAlign : Nat
deriving DecidableEq

instance : Inhabited SegmentHeader := ⟨⟨0, 0, 0, 0⟩⟩

structure DataExtent where
  off : Nat
  sz : Nat
deriving DecidableEq

instance : Inhabited DataExtent := ⟨⟨0, 0⟩⟩

structure NsoHeaderR where
  m0 : Nat
  m1 : Nat
  m2 : Nat
  m3 : Nat
  field4 : Nat
  field8 : Nat
  flags : Nat
  seg0 : SegmentHeader
  seg1 : SegmentHeader
  seg2 : SegmentHeader
  buildId : Bytes
  fsz0 : Nat
  fsz1 : Nat
  fsz2 : Nat
  field6c : Bytes
  dynstrExt : DataExtent
  dynsymExt : DataExtent
  digests : Bytes

instance : Inhabited NsoHeaderR :=
  ⟨⟨0, 0, 0, 0, 0, 0, 0, default, default, default, zeroBytes, 0, 0, 0,
    zeroBytes, default, default, zeroBytes⟩⟩

def NsoHeaderR.seg (h : NsoHeaderR) : Nat → SegmentHeader
  | 0 => h.seg0
  | 1 => h.seg1
  | _ => h.seg2

def NsoHeaderR.fsz (h : NsoHeaderR) : Nat → Nat
  | 0 => h.fsz0
  | 1 => h.fsz1
  | _ => h.fsz2

def parseSeg (f : Bytes) (base : Nat) : SegmentHeader :=
  { fileOffset := readU32 f base
    memOffset := readU32 f (base + 4)
    memSize := readU32 f (base + 8)
    bssAlign := readU32 f (base + 12) }

/-- `memcpy(&header, &file[0], sizeof(header))`, read back through the
packed layout. -/
def parseNsoHeader (f : Bytes) : NsoHeaderR :=
  { m0 := readU8 f 0
    m1 := readU8 f 1
    m2 := readU8 f 2
    m3 := readU8 f 3
    field4 := readU32 f 4
    field8 := readU32 f 8
    flags := readU32 f 0xc
    seg0 := parseSeg f 0x10
    seg1 := parseSeg f 0x20
    seg2 := parseSeg f 0x30
    buildId := fun k => if k < 32 then readU8 f (0x40 + k) else 0
    fsz0 := readU32 f 0x60
    fsz1 := readU32 f 0x64
    fsz2 := readU32 f 0x68
    field6c := fun k => if k < 36 then readU8 f (0x6c + k) else 0
    dynstrExt := ⟨readU32 f 0x90, readU32 f 0x94⟩
    dynsymExt := ⟨readU32 f 0x98, readU32 f 0x9c⟩
    digests := fun k => if k < 96 then readU8 f (0xa0 + k) else 0 }

/-- The 16 bytes of one serialized `SegmentHeader`. -/
def segByte (s : SegmentHeader) (k : Nat) : Nat :=
  if k < 4 then leByte s.fileOffset k
  else if k < 8 then leByte s.memOffset (k - 4)
  else if k < 12 then leByte s.memSize (k - 8)
  else leByte s.bssAlign (k - 12)

/-- The raw bytes of an `NsoHeader` value (offsets as in the packed C
layout); used when `WriteUncompressedNso` memcpy's the header out. -/
def serializeNsoHeader (h : NsoHeaderR) : Bytes := fun j =>
  if j < 1 then h.m0 % 256
  else if j < 2 then h.m1 % 256
  else if j < 3 then h.m2 % 256
  else if j < 4 then h.m3 % 256
  else if j < 8 then leByte h.field4 (j - 4)
  else if j < 12 then leByte h.field8 (j - 8)
  else if j < 16 then leByte h.flags (j - 12)
  else if j < 0x20 then segByte h.seg0 (j - 0x10)
  else if j < 0x30 then segByte h.seg1 (j - 0x20)
  else if j < 0x40 then segByte h.seg2 (j - 0x30)
  else if j < 0x60 then h.buildId (j - 0x40) % 256
  else if j < 0x64 then leByte h.fsz0 (j - 0x60)
  else if j < 0x68 then leByte h.fsz1 (j - 0x64)
  else if j < 0x6c then leByte h.fsz2 (j - 0x68)
  else if j < 0x90 then h.field6c (j - 0x6c) % 256
  else if j < 0x94 then leByte h.dynstrExt.off (j - 0x90)
  else if j < 0x98 then leByte h.dynstrExt.sz (j - 0x94)
  else if j < 0x9c then leByte h.dynsymExt.off (j - 0x98)
  else if j < 0xa0 then leByte h.dynsymExt.sz (j - 0x9c)
  else if j < 0x100 then h.digests (j - 0xa0) % 256
  else 0

/-! ### Dynamic info (src/nx2elf.cpp lines 1293-1310, 351-376) -/

structure DynInfo where
  symtab : Nat
  rela : Nat
  relasz : Nat
  jmprel : Nat
  pltrelsz : Nat
  strtab : Nat
  strsz : Nat
  pltgot : Nat
  hash : Nat
  gnu_hash : Nat
  dinit : Nat
  dfini : Nat
  init_array : Nat
  init_arraysz : Nat
  fini_array : Nat
  fini_arraysz : Nat
deriving DecidableEq

instance : Inhabited DynInfo := ⟨⟨0, 0, 0, 0, 0, 0, 0, 0, 0, 0, 0, 0, 0, 0, 0, 0⟩⟩

/-- Walk the in-image dynamic table until a zero `d_tag`, returning the
`(d_tag, d_un)` pairs before the terminator.  The C loop is unbounded; in
any execution that stays inside the image it reads at most
`imageSize / 16 + 1` entries, which is the fuel callers pass. -/
def dynWalk (img : Bytes) (off : Nat) : Nat → List (Nat × Nat)
  | 0 => []
  | fuel + 1 =>
    let tag := readU64 img off
    if tag = 0 then []
    else (tag, readU64 img (off + 8)) :: dynWalk img (off + 16) fuel

/-- The `DT_ASSIGN_U64` switch of `NsoFile::Load`. -/
def applyDyn (d : DynInfo) (e : Nat × Nat) : DynInfo :=
  if e.1 = DT_SYMTAB then { d with symtab := e.2 }
  else if e.1 = DT_RELA then { d with rela := e.2 }
  else if e.1 = DT_RELASZ then { d with relasz := e.2 }
  else if e.1 = DT_JMPREL then { d with jmprel := e.2 }
  else if e.1 = DT_PLTRELSZ then { d with pltrelsz := e.2 }
  else if e.1 = DT_STRTAB then { d with strtab := e.2 }
  else if e.1 = DT_STRSZ then { d with strsz := e.2 }
  else if e.1 = DT_PLTGOT then { d with pltgot := e.2 }
  else if e.1 = DT_HASH then { d with hash := e.2 }
  else if e.1 = DT_GNU_HASH then { d with gnu_hash := e.2 }
  else if e.1 = DT_INIT then { d with dinit := e.2 }
  else if e.1 = DT_FINI then { d with dfini := e.2 }
  else if e.1 = DT_INIT_ARRAY then { d with init_array := e.2 }
  else if e.1 = DT_INIT_ARRAYSZ then { d with init_arraysz := e.2 }
  else if e.1 = DT_FINI_ARRAY then { d with fini_array := e.2 }
  else if e.1 = DT_FINI_ARRAYSZ then { d with fini_arraysz := e.2 }
  else d

def foldDynInfo (entries : List (Nat × Nat)) : DynInfo :=
  entries.foldl applyDyn default

/-! ### Linear scans and memory search -/

/-- First index `i` in `[start, start+fuel)` with `p i`. -/
def scanFirst (p : Nat → Bool) : Nat → Nat → Option Nat
  | _, 0 => none
  | start, fuel + 1 => if p start then some start else scanFirst p (start + 1) fuel

theorem scanFirst_spec (p : Nat → Bool) (start fuel o : Nat)
    (h : scanFirst p start fuel = some o) :
    start ≤ o ∧ p o = true ∧ ∀ k, start ≤ k → k < o → p k = false := by
  induction fuel generalizing start with
  | zero => simp [scanFirst] at h
  | succ n ih =>
    unfold scanFirst at h
    by_cases hp : p start
    · rw [if_pos hp] at h
      cases h
      exact ⟨Nat.le_refl _, hp, fun k hk1 hk2 => absurd (Nat.lt_of_lt_of_le hk2 hk1) (by omega)⟩
    · rw [if_neg hp] at h
      obtain ⟨h1, h2, h3⟩ := ih (start + 1) h
      refine ⟨by omega, h2, fun k hk1 hk2 => ?_⟩
      rcases Nat.eq_or_lt_of_le hk1 with hk | hk
      · simpa [← hk] using Bool.of_not_eq_true hp
      · exact h3 k hk hk2

theorem scanFirst_none (p : Nat → Bool) (start fuel k : Nat)
    (h : scanFirst p start fuel = none) (h1 : start ≤ k) (h2 : k < start + fuel) :
    p k = false := by
  induction fuel generalizing start with
  | zero => omega
  | succ n ih =>
    unfold scanFirst at h
    by_cases hp : p start
    · rw [if_pos hp] at h; cases h
    · rw [if_neg hp] at h
      rcases Nat.eq_or_lt_of_le h1 with hk | hk
      · simpa [← hk] using Bool.of_not_eq_true hp
      · exact ih (start + 1) h hk (by omega)

theorem scanFirst_isSome (p : Nat → Bool) (start fuel k : Nat)
    (h1 : start ≤ k) (h2 : k < start + fuel) (hp : p k = true) :
    (scanFirst p start fuel).isSome := by
  cases hs : scanFirst p start fuel with
  | some o => rfl
  | none => rw [scanFirst_none p start fuel k hs h1 h2] at hp; cases hp

/-- Last index `i` in `[0, len)` with `p i` (reverse scan). -/
def scanLast (p : Nat → Bool) (len : Nat) : Option Nat :=
  (scanFirst (fun k => p (len - 1 - k)) 0 len).map (fun k => len - 1 - k)

/-- `memmem`: first occurrence of `needle[0..nlen)` in
`hay[base..base+len)`, as an offset relative to `base`.  Modelled from
the spec: the implementation lives in a header not present in the
snapshot; it is a plain forward byte search. -/
def memmemAt (hay : Bytes) (base : Nat) (needle : Bytes) (nlen o : Nat) : Bool :=
  (List.range nlen).all (fun k => readU8 hay (base + o + k) == readU8 needle k)

def memmem (hay : Bytes) (base len : Nat) (needle : Bytes) (nlen : Nat) : Option Nat :=
  if nlen ≤ len then scanFirst (memmemAt hay base needle nlen) 0 (len - nlen + 1) else none

/-- `memmemr`: LAST occurrence (reverse search), per spec section 4.4. -/
def memmemr (hay : Bytes) (base len : Nat) (needle : Bytes) (nlen : Nat) : Option Nat :=
  if nlen ≤ len then scanLast (memmemAt hay base needle nlen) (len - nlen + 1) else none

/-! ### PLT resolution (src/nx2elf.cpp lines 229-250) -/

/-- The 8-instruction masked resolver pattern, as bytes (little-endian). -/
def pltPatternWords : List Nat :=
  [0xa9bf7bf0, 0xd00004d0, 0xf9428a11, 0x91144210,
   0xd61f0220, 0xd503201f, 0xd503201f, 0xd503201f]

def pltMaskWords : List Nat :=
  [0xffffffff, 0x00000000, 0xff000000, 0xff000000,
   0xff000000, 0xffffffff, 0xffffffff, 0xffffffff]

def pltPatternByte (k : Nat) : Nat := leByte (pltPatternWords.getD (k / 4) 0) (k % 4)

def pltMaskByte (k : Nat) : Nat := leByte (pltMaskWords.getD (k / 4) 0) (k % 4)

/-- Masked match of the 32-byte resolver pattern at relative offset `o`. -/
def pltMatchAt (hay : Bytes) (base o : Nat) : Bool :=
  (List.range 32).all (fun k =>
    readU8 hay (base + o + k) &&& pltMaskByte k == pltPatternByte k &&& pltMaskByte k)

/-- `memmem_m`: first masked occurrence.  Modelled from the spec (section
4.2): the implementation lives in a header not present in the snapshot;
matching is the FIRST occurrence, scanning forward bytewise. -/
def memmemMasked (hay : Bytes) (base len : Nat) : Option Nat :=
  if 32 ≤ len then scanFirst (pltMatchAt hay base) 0 (len - 32 + 1) else none

/-- `NsoFile::ResolvePlt`.  Returns `some (plt_addr, plt_size)` on
success; the C code leaves `plt_info` unwritten and returns false
otherwise.  `base` is the image offset of the scanned buffer, so
`found - &image[0] = base + o`. -/
def resolvePlt (di : DynInfo) (img : Bytes) (base len : Nat) : Option (Nat × Nat) :=
  if di.pltrelsz ≠ 0 then
    match memmemMasked img base len with
    | some o =>
      let pltEntryCount := di.pltrelsz / 24
      some (base + o, 16 * 2 + 16 * pltEntryCount)
    | none => none
  else none

/-! ### ELF symbol / relocation readers -/

structure SymR where
  stName : Nat
  stInfo : Nat
  stOther : Nat
  stShndx : Nat
  stValue : Nat
  stSize : Nat
deriving DecidableEq

instance : Inhabited SymR := ⟨⟨0, 0, 0, 0, 0, 0⟩⟩

/-- Read an `Elf64_Sym` (24 bytes) at image offset `off`. -/
def readSym (img : Bytes) (off : Nat) : SymR :=
  { stName := readU32 img off
    stInfo := readU8 img (off + 4)
    stOther := readU8 img (off + 5)
    stShndx := readU16 img (off + 6)
    stValue := readU64 img (off + 8)
    stSize := readU64 img (off + 16) }

/-- `iter_dynsym` (src/nx2elf.cpp lines 565-570): `dynsym.size /
sizeof(Elf64_Sym)` symbols starting at `image[dyn_info.symtab]`. -/
def dynsymList (img : Bytes) (symtab sizeBytes : Nat) : List SymR :=
  (List.range (sizeBytes / 24)).map (fun i => readSym img (symtab + 24 * i))

/-- `ELF64_R_TYPE` of the `Elf64_Rela` at image offset `off`. -/
def relaType (img : Bytes) (off : Nat) : Nat := readU64 img (off + 8) % 4294967296

def relaOffsetField (img : Bytes) (off : Nat) : Nat := readU64 img off

/-! ### GNU build-id note needles (spec section 4.4)

Modelled from the spec: the `GnuBuildId` struct lives in a header not
present in the snapshot.  The needle is an `Elf64_Nhdr` prefix
(namesz=4, descsz, type=3) followed by "GNU" and the zero fourth owner
byte, 16 bytes in total (`offsetof(GnuBuildId, build_id_md5)`). -/

def buildIdNeedle (descsz : Nat) : Bytes := fun k =>
  if k < 4 then leByte 4 k
  else if k < 8 then leByte descsz (k - 4)
  else if k < 12 then leByte 3 (k - 8)
  else if k = 12 then 71  -- G
  else if k = 13 then 78  -- N
  else if k = 14 then 85  -- U
  else 0

/-- The note-discovery loop (src/nx2elf.cpp lines 473-494): scan rodata,
text, data in that order, md5 needle then sha1 needle, reverse search;
result is the image offset of the found note header. -/
def findNote (img : Bytes) (segs : Nat → SegmentHeader) : Option Nat :=
  ([1, 0, 2].map (fun i => segs i)).foldl
    (fun acc seg =>
      match acc with
      | some o => some o
      | none =>
        match memmemr img seg.memOffset seg.memSize (buildIdNeedle 16) 16 with
        | some o => some (seg.memOffset + o)
        | none =>
          match memmemr img seg.memOffset seg.memSize (buildIdNeedle 20) 16 with
          | some o => some (seg.memOffset + o)
          | none => none)
    none

/-! ### .init / .fini opcode scans (src/nx2elf.cpp lines 762-783) -/

/-- The `.init` ret-instruction scan, restricted to the words that lie
inside the image.  CAUTION: the C loop (`for (int i = 0;; i++)`) has no
bound at all; when no `ret` word exists inside the image it keeps
reading past the image buffer (undefined behaviour).  This bounded
version is the largest in-bounds prefix of that loop. -/
def initRetScan (img : Bytes) (off isz : Nat) : Option Nat :=
  scanFirst (fun i => readU32 img (off + 4 * i) == 0xd65f03c0) 0 ((isz - off) / 4)

/-- The `.fini` branch scan: first word within 0x20 words whose top byte
is `0x14`. -/
def finiBranchScan (img : Bytes) (off : Nat) : Option Nat :=
  scanFirst (fun i => readU32 img (off + 4 * i) &&& 0xff000000 == 0x14000000) 0 0x20

/-! ### EH frame measurement

Modelled from the spec (section 4.5): `ElfEHInfo::MeasureFrame` lives in
`elf_eh.h`, which is not in the repository snapshot.  The header must
have version 1; the `.eh_frame` pointer is decoded per its encoding (the
pcrel/sdata4 encoding 0x1b used by the AArch64 toolchain is supported);
records are walked as length-prefixed entries, with 64-bit extended
length when the 32-bit field is 0xFFFFFFFF, until a zero-length
terminator, and their totals are summed. -/

def ehRecordWalk (img : Bytes) (off : Nat) : Nat → Option Nat
  | 0 => none
  | fuel + 1 =>
    let len := readU32 img off
    if len = 0 then some 0
    else
      let tot := if len = 0xffffffff then readU64 img (off + 4) + 12 else len + 4
      (ehRecordWalk img (off + tot) fuel).map (· + tot)

/-- Modelled from the spec: returns `some (frameRelOffset, frameSize)`
where `frame_addr = hdr_addr + frameRelOffset`; `none` disables EH
section emission. -/
def measureFrame (img : Bytes) (hdrAddr isz : Nat) : Option (Nat × Nat) :=
  if readU8 img hdrAddr ≠ 1 then none
  else if readU8 img (hdrAddr + 1) = 0x1b then
    let rel := readS32 img (hdrAddr + 4)
    let frameRel := ((4 + rel).emod 18446744073709551616).toNat
    (ehRecordWalk img ((((hdrAddr : Int) + 4 + rel).emod 18446744073709551616).toNat)
        (isz / 4 + 1)).map
      (fun s => (frameRel, s))
  else none

/-! ### Loader state and NsoFile::Load (src/nx2elf.cpp lines 251-508) -/

def kUnknown : Nat := 0
def kNso : Nat := 1
def kNro : Nat := 2
def kMod : Nat := 3

/-- The fields of `NsoFile` that survive `Load`.  `plt_info` has no
initialiser in the C++ (reading it without a successful `ResolvePlt` is
undefined); it is modelled as an `Option` that is `none` unless
`ResolvePlt` succeeded. -/
structure NsoState where
  fileType : Nat
  header : NsoHeaderR
  image : Bytes
  imageSize : Nat
  dynamicOff : Nat
  dynInfo : DynInfo
  pltInfo : Option (Nat × Nat)
  noteOff : Option Nat
  ehHdrAddr : Nat
  ehHdrSize : Nat

instance : Inhabited NsoState :=
  ⟨⟨0, default, zeroBytes, 0, 0, default, none, none, 0, 0⟩⟩

/-- Fuel that covers every dynamic-table walk that stays inside the
image (the C loop is unbounded and would read out of bounds beyond it). -/
def dynFuel (isz : Nat) : Nat := isz / 16 + 1

/-- The LZ4 block decoder, an external collaborator (spec section 1):
given `(srcOff, srcLen, dstCap)` it returns the C `int` result of
`LZ4_decompress_safe` and the decoded bytes. -/
abbrev Lz4Oracle := Nat → Nat → Nat → Int × Bytes

def isNsoMagic (f : Bytes) : Bool :=
  readU8 f 0 == 78 && readU8 f 1 == 83 && readU8 f 2 == 79 && readU8 f 3 == 48

def isNroMagic (f : Bytes) : Bool :=
  readU8 f 0x10 == 78 && readU8 f 0x11 == 82 && readU8 f 0x12 == 79 && readU8 f 0x13 == 48

def isModMagic (b : Bytes) (off : Nat) : Bool :=
  readU8 b off == 77 && readU8 b (off + 1) == 79 &&
    readU8 b (off + 2) == 68 && readU8 b (off + 3) == 48

/-- One iteration of the NSO segment loop: decompress when bit `i` of
`flags` is set (failing exactly when `LZ4_decompress_safe` returns a
non-positive length — `NsoFile::Decompress` returns `len > 0`),
otherwise copy `segment_file_sizes[i]` bytes verbatim. -/
def procSeg (lz4 : Lz4Oracle) (file : Bytes) (h : NsoHeaderR) (i : Nat)
    (img : Bytes) : Option Bytes :=
  let seg := h.seg i
  if h.flags &&& (1 <<< i) ≠ 0 then
    let r := lz4 seg.fileOffset (h.fsz i) seg.memSize
    if r.1 > 0 then some (writeBytes img seg.memOffset r.2 0 (min r.1.toNat seg.memSize))
    else none
  else some (writeBytes img seg.memOffset file seg.fileOffset (h.fsz i))

def procSegs (lz4 : Lz4Oracle) (file : Bytes) (h : NsoHeaderR) (img : Bytes) :
    List Nat → Option Bytes
  | [] => some img
  | i :: rest =>
    match procSeg lz4 file h i img with
    | some img2 => procSegs lz4 file h img2 rest
    | none => none

/-- `mod_get_offset`: pointer arithmetic relative to the MOD header,
truncated to u32. -/
def modGetOffset (modBase : Nat) (rel : Int) : Nat :=
  (((modBase : Int) + rel).emod 4294967296).toNat

/-- `std::sort` on the `seen_shndx` vector, modelled as insertion sort
(any sorting algorithm: only sortedness and the multiset matter). -/
def insertSorted (x : Nat) : List Nat → List Nat
  | [] => [x]
  | y :: r => if x ≤ y then x :: y :: r else y :: insertSorted x r

def sortNat (l : List Nat) : List Nat := l.foldr insertSorted []

/-- Adjacent-duplicate erasure, as done by `std::unique` on the sorted
`seen_shndx` vector. -/
def adjUnique : List Nat → List Nat
  | [] => []
  | [x] => [x]
  | x :: y :: rest => if x = y then adjUnique (y :: rest) else x :: adjUnique (y :: rest)

/-- First nonzero (after u32 narrowing) `st_value` among dynsym entries
of type `STT_SECTION` whose `st_shndx` is the data section index: the C
loop assigns `segments[kData].offset` only while it is still 0. -/
def findDataOffset (syms : List SymR) (dataShndx : Nat) : Nat :=
  syms.foldl
    (fun acc s =>
      if acc = 0 ∧ s.stInfo % 16 = STT_SECTION ∧ s.stShndx = dataShndx then
        s.stValue % 4294967296
      else acc)
    0

/-- The distinct `st_shndx` collection of the raw-MOD path: push every
index except `SHN_UNDEF` and `≥ SHN_LORESERVE`, sort, erase adjacent
duplicates. -/
def seenShndx (syms : List SymR) : List Nat :=
  (syms.filter (fun s => !(s.stShndx == SHN_UNDEF || SHN_LORESERVE ≤ s.stShndx))).map
    (·.stShndx)

/-- The raw-MOD segment-synthesis pass (src/nx2elf.cpp lines 382-471).
Returns the patched header together with the PLT info. -/
def modSynth (di : DynInfo) (hdr0 : NsoHeaderR) (img : Bytes) (isz modBase : Nat) :
    Option (NsoHeaderR × (Nat × Nat)) :=
  match resolvePlt di img 0 isz with
  | none => none
  | some p =>
    if di.symtab ≥ di.strtab then none
    else
      let dsSize := (di.strtab - di.symtab) % 4294967296
      let syms := dynsymList img di.symtab dsSize
      let distinct := adjUnique (sortNat (seenShndx syms))
      if distinct.length ≠ 4 then none
      else
        let dataOff := findDataOffset syms (distinct.getD 2 0)
        if dataOff = 0 then none
        else
          let textSize := (p.1 + p.2) % 4294967296
          let roOff := alignUp textSize 0x1000 % 4294967296
          let roSize := (((dataOff : Int) - roOff).emod 4294967296).toNat
          let dataSize := (((isz : Int) - dataOff).emod 4294967296).toNat
          let bssStart := modGetOffset modBase (readS32 img (modBase + 8))
          let bssEnd := modGetOffset modBase (readS32 img (modBase + 12))
          let bssRaw := (((bssEnd : Int) - bssStart).emod 4294967296).toNat
          let bssAl := (alignUp bssRaw 0x1000 % 4294967296 + 1) % 4294967296
          some
            ({ hdr0 with
                seg0 := ⟨0, 0, textSize, 0x100⟩
                seg1 := ⟨roOff, roOff, roSize, 1⟩
                seg2 := ⟨dataOff, dataOff, dataSize, bssAl⟩
                fsz0 := textSize, fsz1 := roSize, fsz2 := dataSize
                dynstrExt := ⟨(((di.strtab : Int) - roOff).emod 4294967296).toNat,
                              di.strsz % 4294967296⟩
                dynsymExt := ⟨(((di.symtab : Int) - roOff).emod 4294967296).toNat,
                              dsSize⟩ },
             p)

/-- The tail of `Load` shared by all container types: MOD pointer and
magic checks, dynamic-table parse, PLT resolution (raw-MOD synthesis
when `ft = kMod`), build-id note discovery and `eh_info` capture. -/
def loadRest (ft : Nat) (hdr0 : NsoHeaderR) (img : Bytes) (isz : Nat) : Option NsoState :=
  let magicOff := readU32 img 4
  if magicOff + 28 > isz then none
  else if ¬ isModMagic img magicOff then none
  else
    let modBase := magicOff
    let dynamicOff :=
      ((((modBase : Int) + readS32 img (modBase + 4)).emod 18446744073709551616)).toNat
    let di := foldDynInfo (dynWalk img dynamicOff (dynFuel isz))
    let synth :=
      if ft ≠ kMod then
        some (hdr0, resolvePlt di img hdr0.seg0.memOffset hdr0.seg0.memSize)
      else
        match modSynth di hdr0 img isz modBase with
        | none => none
        | some (h, p) => some (h, some p)
    match synth with
    | none => none
    | some (hdr1, plt) =>
      let note := findNote img hdr1.seg
      let hdr2 :=
        if ft = kMod then
          match note with
          | some n =>
            let descsz := readU32 img (n + 4)
            { hdr1 with
                buildId := fun k => if k < descsz then readU8 img (n + 16 + k)
                                    else hdr1.buildId k }
          | none => hdr1
        else hdr1
      let ehStart := modGetOffset modBase (readS32 img (modBase + 16))
      let ehEnd := modGetOffset modBase (readS32 img (modBase + 20))
      some
        { fileType := ft
          header := hdr2
          image := img
          imageSize := isz
          dynamicOff := dynamicOff
          dynInfo := di
          pltInfo := plt
          noteOff := note
          ehHdrAddr := ehStart
          ehHdrSize := (((ehEnd : Int) - ehStart).emod 18446744073709551616).toNat }

/-- `NsoFile::Load`, with the output file path replaced by the file's
bytes and size. -/
def loadFile (lz4 : Lz4Oracle) (file : Bytes) (fsz : Nat) : Option NsoState :=
  if 0x100 ≤ fsz ∧ isNsoMagic file then
    let hdr := parseNsoHeader file
    let isz := hdr.seg2.memOffset + hdr.seg2.memSize + hdr.seg2.bssAlign
    match procSegs lz4 file hdr zeroBytes [0, 1, 2] with
    | some img => loadRest kNso hdr img isz
    | none => none
  else if 0x80 ≤ fsz ∧ isNroMagic file then
    if readU32 file 0x18 ≠ fsz then none
    else
      let d : NsoHeaderR := default
      let hdr :=
        { d with
            seg0 := ⟨readU32 file 0x20, readU32 file 0x20, readU32 file 0x24, 0x100⟩
            seg1 := ⟨readU32 file 0x28, readU32 file 0x28, readU32 file 0x2c, 1⟩
            seg2 := ⟨readU32 file 0x30, readU32 file 0x30, readU32 file 0x34,
                     readU32 file 0x38⟩
            fsz0 := readU32 file 0x24, fsz1 := readU32 file 0x2c
            fsz2 := readU32 file 0x34
            buildId := fun k => if k < 32 then readU8 file (0x40 + k) else 0
            dynstrExt := ⟨readU32 file 0x70, readU32 file 0x74⟩
            dynsymExt := ⟨readU32 file 0x78, readU32 file 0x7c⟩ }
      loadRest kNro hdr file fsz
  else if 8 ≤ fsz then loadRest kMod default file fsz
  else none

/-! ### NsoFile::WriteUncompressedNso (src/nx2elf.cpp lines 571-590) -/

/-- The header rewrite: clear the three compression bits (the mask also
clears bits 8 and above), recompute per-segment file offsets and sizes,
and pin the text/rodata `bss_align` fields. -/
def transformHdr (h : NsoHeaderR) : NsoHeaderR :=
  { h with
      flags := h.flags &&& 0xf8
      seg0 := { h.seg0 with fileOffset := (h.seg0.memOffset + 0x100) % 4294967296
                            bssAlign := 0x100 }
      seg1 := { h.seg1 with fileOffset := (h.seg1.memOffset + 0x100) % 4294967296
                            bssAlign := 0 }
      seg2 := { h.seg2 with fileOffset := (h.seg2.memOffset + 0x100) % 4294967296 }
      fsz0 := h.seg0.memSize
      fsz1 := h.seg1.memSize
      fsz2 := h.seg2.memSize }

/-- The written file: rewritten header followed by
`image[0 .. data.mem_offset + data.mem_size)` (`u32 image_size`). -/
def writeUncompressedNso (st : NsoState) : Bytes × Nat :=
  let h := transformHdr st.header
  let isz := (h.seg2.memOffset + h.seg2.memSize) % 4294967296
  (fun j =>
    if j < 0x100 then serializeNsoHeader h j
    else if j < 0x100 + isz then st.image (j - 0x100) % 256
    else 0,
   0x100 + isz)

/-! ### NsoFile::WriteElf (src/nx2elf.cpp lines 591-1283) -/

structure Shdr where
  shName : Nat
  shType : Nat
  shFlags : Nat
  shAddr : Nat
  shOffset : Nat
  shSize : Nat
  shLink : Nat
  shInfo : Nat
  shAddralign : Nat
  shEntsize : Nat
deriving DecidableEq

instance : Inhabited Shdr := ⟨⟨0, 0, 0, 0, 0, 0, 0, 0, 0, 0⟩⟩

structure Phdr where
  pType : Nat
  pFlags : Nat
  pOffset : Nat
  pVaddr : Nat
  pPaddr : Nat
  pFilesz : Nat
  pMemsz : Nat
  pAlign : Nat
deriving DecidableEq

instance : Inhabited Phdr := ⟨⟨0, 0, 0, 0, 0, 0, 0, 0⟩⟩

/-- u64 subtraction. -/
def sub64 (a b : Nat) : Nat := (((a : Int) - b).emod 18446744073709551616).toNat

def dynsymListOf (st : NsoState) : List SymR :=
  dynsymList st.image st.dynInfo.symtab st.header.dynsymExt.sz

def dynEntriesOf (st : NsoState) : List (Nat × Nat) :=
  dynWalk st.image st.dynamicOff (dynFuel st.imageSize)

/-- `present.plt` reads `plt_info.addr`; absent resolution leaves the
model value 0 (the C field is uninitialised in that case). -/
def pltAddrOf (st : NsoState) : Nat := (st.pltInfo.getD (0, 0)).1

def pltSizeOf (st : NsoState) : Nat := (st.pltInfo.getD (0, 0)).2

/-- `vaddr_to_shdr` for one loop iteration `i`. -/
def vaddrToShdrOne (segs : Nat → SegmentHeader) (i v : Nat) (acc : StringTable × Shdr) :
    StringTable × Shdr :=
  let seg := segs i
  let memEnd := seg.memOffset + seg.memSize
  if seg.memOffset ≤ v ∧ v < memEnd then
    let name := if i = 0 then ".text" else if i = 2 then ".data" else ".rodata"
    let flags := if i = 0 then SHF_ALLOC + SHF_EXECINSTR
                 else if i = 2 then SHF_ALLOC + SHF_WRITE else SHF_ALLOC
    let t := acc.1.addString name
    (t, { shName := t.getOffset name, shType := SHT_PROGBITS, shFlags := flags,
          shAddr := seg.memOffset, shOffset := 0, shSize := seg.memSize,
          shLink := 0, shInfo := 0, shAddralign := 8, shEntsize := 0 })
  else if i = 2 ∧ memEnd ≤ v ∧ v ≤ memEnd + seg.bssAlign then
    let t := acc.1.addString ".bss"
    (t, { shName := t.getOffset ".bss", shType := SHT_NOBITS,
          shFlags := SHF_ALLOC + SHF_WRITE, shAddr := memEnd, shOffset := 0,
          shSize := seg.bssAlign, shLink := 0, shInfo := 0, shAddralign := 8,
          shEntsize := 0 })
  else acc

def vaddrToShdr (segs : Nat → SegmentHeader) (t : StringTable) (v : Nat) :
    StringTable × Shdr :=
  vaddrToShdrOne segs 2 v (vaddrToShdrOne segs 1 v (vaddrToShdrOne segs 0 v (t, default)))

/-- Accumulator of the section-discovery pass. -/
structure KnownAcc where
  tbl : StringTable
  known : List (Nat × Shdr)
  maxShndx : Nat

def knownHas (known : List (Nat × Shdr)) (i : Nat) : Bool := known.any (fun e => e.1 == i)

def buildKnownStep (segs : Nat → SegmentHeader) (acc : KnownAcc) (sym : SymR) : KnownAcc :=
  if SHN_LORESERVE ≤ sym.stShndx then acc
  else
    let acc1 := { acc with maxShndx := max acc.maxShndx sym.stShndx }
    if sym.stShndx ≠ SHT_NULL ∧ ¬ knownHas acc1.known sym.stShndx then
      let r := vaddrToShdr segs acc1.tbl sym.stValue
      if r.2.shType ≠ SHT_NULL then
        { acc1 with tbl := r.1, known := acc1.known ++ [(sym.stShndx, r.2)] }
      else { acc1 with tbl := r.1 }
    else acc1

def buildKnown (segs : Nat → SegmentHeader) (syms : List SymR) : KnownAcc :=
  syms.foldl (buildKnownStep segs)
    ⟨StringTable.init.addString ".shstrtab", [], 0⟩

/-- `next_free`: smallest index in `(start, SHN_LORESERVE)` not in the
known map, or `SHN_UNDEF`. -/
def nextFree (known : List (Nat × Shdr)) (start : Nat) : Nat :=
  match scanFirst (fun i => ! knownHas known i) (start + 1) (SHN_LORESERVE - (start + 1)) with
  | some i => i
  | none => SHN_UNDEF

/-- One conditional manual insertion of a canonical section. -/
def manualAdd1 (segs : Nat → SegmentHeader) (name : String) (cond : Bool) (v : Nat)
    (s : KnownAcc × Nat) : KnownAcc × Nat :=
  let acc := s.1
  let shndx := s.2
  if shndx ≠ SHN_UNDEF ∧ acc.tbl.getOffset name = 0 ∧ cond then
    let r := vaddrToShdr segs acc.tbl v
    let known2 := acc.known ++ [(shndx, r.2)]
    ({ acc with tbl := r.1, known := known2 }, nextFree known2 shndx)
  else s

/-- The manual-addition block (src/nx2elf.cpp lines 660-695), run only
when fewer than the four canonical sections were discovered. -/
def manualAdds (segs : Nat → SegmentHeader) (acc : KnownAcc) : KnownAcc :=
  if acc.known.length = 4 then acc
  else
    (manualAdd1 segs ".bss" (decide (0 < (segs 2).bssAlign))
        ((segs 2).memOffset + (segs 2).memSize)
      (manualAdd1 segs ".data" (decide (0 < (segs 2).memSize)) (segs 2).memOffset
        (manualAdd1 segs ".rodata" (decide (0 < (segs 1).memSize)) (segs 1).memOffset
          (manualAdd1 segs ".text" (decide (0 < (segs 0).memSize)) (segs 0).memOffset
            (acc, nextFree acc.known SHN_UNDEF))))).1

def writeElfKnown (st : NsoState) : KnownAcc :=
  manualAdds st.header.seg (buildKnown st.header.seg (dynsymListOf st))

/-- `jump_slot_addr_end`: max `r_offset + 8` over `R_AARCH64_JUMP_SLOT`
entries of the JMPREL table. -/
def jumpSlotEnd (st : NsoState) : Nat :=
  if st.dynInfo.jmprel ≠ 0 then
    (List.range (st.dynInfo.pltrelsz / 24)).foldl
      (fun acc i =>
        let off := st.dynInfo.jmprel + 24 * i
        if relaType st.image off = R_AARCH64_JUMP_SLOT then
          max acc ((relaOffsetField st.image off + 8) % 18446744073709551616)
        else acc)
      0
  else 0

def u64Needle (v : Nat) : Bytes := fun k => leByte v k

/-- `got_addr`: first 8-byte occurrence of the dynamic table's file
offset in the image past `jump_slot_addr_end`. -/
def gotAddrOf (st : NsoState) (jsae : Nat) : Nat :=
  if jsae ≠ 0 then
    match memmem st.image jsae (st.imageSize - jsae) (u64Needle st.dynamicOff) 8 with
    | some o => jsae + o
    | none => 0
  else 0

def initRetOffsetOf (st : NsoState) : Nat :=
  match initRetScan st.image st.dynInfo.dinit st.imageSize with
  | some i => (i + 1) * 4
  | none => 0

def finiBranchOffsetOf (st : NsoState) : Nat :=
  match finiBranchScan st.image st.dynInfo.dfini with
  | some i => (i + 1) * 4
  | none => 0

def measuredOf (st : NsoState) : Option (Nat × Nat) :=
  measureFrame st.image st.ehHdrAddr st.imageSize

structure Presents where
  plt : Bool
  got : Bool
  gotPlt : Bool
  relaPlt : Bool
  hash : Bool
  gnuHash : Bool
  initF : Bool
  finiF : Bool
  initArray : Bool
  finiArray : Bool
  note : Bool
  eh : Bool
deriving DecidableEq

def presentsOf (st : NsoState) : Presents :=
  let jsae := jumpSlotEnd st
  let gA := gotAddrOf st jsae
  { plt := pltAddrOf st != 0
    got := gA != 0 && st.dynInfo.rela != 0
    gotPlt := jsae != 0 && st.dynInfo.pltgot != 0
    relaPlt := (jsae != 0 && st.dynInfo.pltgot != 0) && st.dynInfo.jmprel != 0 &&
               st.dynInfo.pltrelsz != 0
    hash := st.dynInfo.hash != 0
    gnuHash := st.dynInfo.gnu_hash != 0
    initF := st.dynInfo.dinit != 0 && initRetOffsetOf st != 0
    finiF := st.dynInfo.dfini != 0 && finiBranchOffsetOf st != 0
    initArray := st.dynInfo.init_array != 0 && st.dynInfo.init_arraysz != 0
    finiArray := st.dynInfo.fini_array != 0 && st.dynInfo.fini_arraysz != 0
    note := st.noteOff.isSome
    eh := (measuredOf st).isSome }

/-- The number of `shdrs_needed++` increments contributed by the
optional sections (`.eh_frame_hdr`/`.eh_frame` count 2). -/
def pCount (p : Presents) : Nat :=
  (if p.plt then 1 else 0) + (if p.got then 1 else 0) + (if p.gotPlt then 1 else 0) +
  (if p.relaPlt then 1 else 0) + (if p.hash then 1 else 0) +
  (if p.gnuHash then 1 else 0) + (if p.initF then 1 else 0) +
  (if p.finiF then 1 else 0) + (if p.initArray then 1 else 0) +
  (if p.finiArray then 1 else 0) + (if p.note then 1 else 0) +
  (if p.eh then 2 else 0)

/-- The final string table after all `AddString` calls, in program order. -/
def writeElfTbl (st : NsoState) : StringTable :=
  let p := presentsOf st
  let t1 := ((((writeElfKnown st).tbl.addString ".dynstr").addString
      ".dynsym").addString ".dynamic").addString ".rela.dyn"
  let t2 := if p.eh then (t1.addString ".eh_frame_hdr").addString ".eh_frame" else t1
  let t3 := if p.plt then t2.addString ".plt" else t2
  let t4 := if p.got then t3.addString ".got" else t3
  let t5 := if p.gotPlt then t4.addString ".got.plt" else t4
  let t6 := if p.relaPlt then t5.addString ".rela.plt" else t5
  let t7 := if p.hash then t6.addString ".hash" else t6
  let t8 := if p.gnuHash then t7.addString ".gnu.hash" else t7
  let t9 := if p.initF then t8.addString ".init" else t8
  let t10 := if p.finiF then t9.addString ".fini" else t9
  let t11 := if p.initArray then t10.addString ".init_array" else t10
  let t12 := if p.finiArray then t11.addString ".fini_array" else t11
  if p.note then t12.addString ".note" else t12

/-- `num_shdrs` after the final `num_shdrs += shdrs_needed` (u16
arithmetic). -/
def writeElfNumShdrs (st : NsoState) : Nat :=
  let ka := writeElfKnown st
  let numShdrs2 := (ka.maxShndx + 1) % 65536
  let needed : Int := (ka.known.length : Int) - numShdrs2 + 6 + pCount (presentsOf st)
  if 0 < needed then ((numShdrs2 : Int) + needed).toNat % 65536 else numShdrs2

def writeElfShstrOff (st : NsoState) : Nat := 344 + 64 * writeElfNumShdrs st

def ptLoadPhdr (segs : Nat → SegmentHeader) (i off : Nat) : Phdr :=
  let seg := segs i
  { pType := PT_LOAD
    pFlags := if i = 0 then PF_R + PF_X else if i = 2 then PF_R + PF_W else PF_R
    pOffset := off
    pVaddr := seg.memOffset
    pPaddr := seg.memOffset
    pFilesz := seg.memSize
    pMemsz := if i = 2 then seg.memSize + seg.bssAlign else seg.memSize
    pAlign := if i = 2 then 1 else max 1 seg.bssAlign }

def writeElfLoads (st : NsoState) : List Phdr :=
  let segs := st.header.seg
  let dataStart := writeElfShstrOff st + (writeElfTbl st).finalSize
  [ptLoadPhdr segs 0 dataStart,
   ptLoadPhdr segs 1 (dataStart + (segs 0).memSize),
   ptLoadPhdr segs 2 (dataStart + (segs 0).memSize + (segs 1).memSize)]

/-- `vaddr_to_foffset` over the three PT_LOAD headers. -/
def vaddrToFoffset (loads : List Phdr) (v : Nat) : Nat :=
  match loads.find? (fun ph => ph.pVaddr ≤ v && v < ph.pVaddr + ph.pFilesz) with
  | some ph => ph.pOffset + (v - ph.pVaddr)
  | none => 0

def writeElfDynPhdr (st : NsoState) : Phdr :=
  let dynSize := 16 * ((dynEntriesOf st).length + 1)
  { pType := PT_DYNAMIC, pFlags := PF_R + PF_W
    pOffset := vaddrToFoffset (writeElfLoads st) st.dynamicOff
    pVaddr := st.dynamicOff, pPaddr := st.dynamicOff
    pFilesz := dynSize, pMemsz := dynSize, pAlign := 8 }

def writeElfEhSize (st : NsoState) : Nat :=
  if (measuredOf st).isSome then alignUp st.ehHdrSize 16 else st.ehHdrSize

def writeElfEhPhdr (st : NsoState) : Phdr :=
  { pType := PT_GNU_EH_FRAME, pFlags := PF_R
    pOffset := vaddrToFoffset (writeElfLoads st) st.ehHdrAddr
    pVaddr := st.ehHdrAddr, pPaddr := st.ehHdrAddr
    pFilesz := writeElfEhSize st, pMemsz := writeElfEhSize st, pAlign := 4 }

def writeElfPhdrs (st : NsoState) : List Phdr :=
  writeElfLoads st ++ [writeElfDynPhdr st, writeElfEhPhdr st]

/-- The `sh_offset` fixup applied to the known map inside the PT_LOAD
loop. -/
def writeElfKnownFixed (st : NsoState) : List (Nat × Shdr) :=
  (writeElfLoads st).foldl
    (fun ks ph =>
      ks.map (fun e => if e.2.shAddr = ph.pVaddr then (e.1, { e.2 with shOffset := ph.pOffset })
                       else e))
    (writeElfKnown st).known

/-! ### WriteElf: section-header array construction -/

def findFreeFrom (arr : List Shdr) (start : Nat) : Option Nat :=
  scanFirst (fun i => (arr.getD i default).shType == SHT_NULL) start (arr.length - start)

/-- The constrained start index of an "ordered" insertion: one past the
last known section (in map order) whose address range contains the new
section's `sh_addr`. -/
def orderedStart (known : List (Nat × Shdr)) (s : Shdr) : Nat :=
  known.foldl
    (fun st e =>
      if e.2.shAddr ≤ s.shAddr ∧ s.shAddr < e.2.shAddr + e.2.shSize then e.1 + 1 else st)
    1

/-- `insert_shdr`: place `s` at the first free (SHT_NULL) slot at or
after the start index, retrying unconstrained when the ordered scan
found none; returns the updated array and the chosen index
(`SHN_UNDEF` on failure). -/
def insertShdr (known : List (Nat × Shdr)) (arr : List Shdr) (s : Shdr) (ordered : Bool) :
    List Shdr × Nat :=
  let start := if ordered then orderedStart known s else 1
  match findFreeFrom arr start with
  | some i => (arr.set i s, i)
  | none =>
    if ordered ∧ start ≠ 1 then
      match findFreeFrom arr 1 with
      | some i => (arr.set i s, i)
      | none => (arr, SHN_UNDEF)
    else (arr, SHN_UNDEF)

/-- A conditional insertion (the body of an `if (present.x)` block). -/
def insertCond (known : List (Nat × Shdr)) (c : Bool) (arr : List Shdr) (s : Shdr)
    (ordered : Bool) : List Shdr × Nat :=
  if c then insertShdr known arr s ordered else (arr, SHN_UNDEF)

/-- `last_local_dynsym_index`: max index of a `STB_LOCAL` symbol. -/
def lastLocalDynsym (syms : List SymR) : Nat :=
  (syms.enum.foldl
    (fun acc e => if e.2.stInfo / 16 = STB_LOCAL then max acc e.1 else acc) 0)

/-- `.hash` size: `8 + (nbucket + nchain) * 4` read at `dyn_info.hash`. -/
def hashLenOf (st : NsoState) : Nat :=
  8 + readU32 st.image st.dynInfo.hash * 4 + readU32 st.image (st.dynInfo.hash + 4) * 4

/-- `.gnu.hash` size: header + maskwords*8 + nbuckets*4 +
`(dynsymcount - symndx) * 4` (u64 arithmetic). -/
def gnuHashLenOf (st : NsoState) : Nat :=
  let gh := st.dynInfo.gnu_hash
  let nb := readU32 st.image gh
  let symndx := readU32 st.image (gh + 4)
  let mw := readU32 st.image (gh + 8)
  let dynsymcount := st.header.dynsymExt.sz / 24
  (16 + mw * 8 + nb * 4 + sub64 dynsymcount symndx * 4 % 18446744073709551616) %
    18446744073709551616

/-- `glob_dat_end`: max `r_offset + 8` over `R_AARCH64_GLOB_DAT` entries
of the rela table, bounded below by `got_addr`. -/
def globDatEnd (st : NsoState) (gA : Nat) : Nat :=
  (List.range (st.dynInfo.relasz / 24)).foldl
    (fun acc i =>
      let off := st.dynInfo.rela + 24 * i
      if relaType st.image off = R_AARCH64_GLOB_DAT then
        max acc ((relaOffsetField st.image off + 8) % 18446744073709551616)
      else acc)
    gA

/-- The array before any `insert_shdr`: `num_shdrs` null entries with
the known (discovered) section headers placed at their indices. -/
def writeElfArr0 (st : NsoState) : List Shdr :=
  (writeElfKnownFixed st).foldl (fun a e => a.set e.1 e.2)
    (List.replicate (writeElfNumShdrs st) default)

/-- The `.init` section header record. -/
def sInitOf (st : NsoState) : Shdr :=
  { shName := (writeElfTbl st).getOffset ".init", shType := SHT_PROGBITS,
    shFlags := SHF_ALLOC + SHF_EXECINSTR, shAddr := st.dynInfo.dinit,
    shOffset := vaddrToFoffset (writeElfLoads st) st.dynInfo.dinit,
    shSize := initRetOffsetOf st,
    shLink := 0, shInfo := 0, shAddralign := 4, shEntsize := 0 }

def weR1 (st : NsoState) : List Shdr × Nat :=
  insertCond (writeElfKnownFixed st) (presentsOf st).initF (writeElfArr0 st) (sInitOf st) true

/-- The `.fini` section header record. -/
def sFiniOf (st : NsoState) : Shdr :=
  { shName := (writeElfTbl st).getOffset ".fini", shType := SHT_PROGBITS,
    shFlags := SHF_ALLOC + SHF_EXECINSTR, shAddr := st.dynInfo.dfini,
    shOffset := vaddrToFoffset (writeElfLoads st) st.dynInfo.dfini,
    shSize := finiBranchOffsetOf st,
    shLink := 0, shInfo := 0, shAddralign := 4, shEntsize := 0 }

def weR2 (st : NsoState) : List Shdr × Nat :=
  insertCond (writeElfKnownFixed st) (presentsOf st).finiF (weR1 st).1 (sFiniOf st) true

/-- The `.dynstr` section header record. -/
def sDynstrOf (st : NsoState) : Shdr :=
  { shName := (writeElfTbl st).getOffset ".dynstr", shType := SHT_STRTAB,
    shFlags := SHF_ALLOC, shAddr := (st.header.seg 1).memOffset + st.header.dynstrExt.off,
    shOffset := ((writeElfLoads st).getD 1 default).pOffset + st.header.dynstrExt.off,
    shSize := st.header.dynstrExt.sz,
    shLink := 0, shInfo := 0, shAddralign := 1, shEntsize := 0 }

def weR3 (st : NsoState) : List Shdr × Nat :=
  insertShdr (writeElfKnownFixed st) (weR2 st).1 (sDynstrOf st) false

/-- The `.dynsym` section header record (links to the `.dynstr` index
returned by its insertion). -/
def sDynsymOf (st : NsoState) : Shdr :=
  { shName := (writeElfTbl st).getOffset ".dynsym", shType := SHT_DYNSYM,
    shFlags := SHF_ALLOC, shAddr := (st.header.seg 1).memOffset + st.header.dynsymExt.off,
    shOffset := ((writeElfLoads st).getD 1 default).pOffset + st.header.dynsymExt.off,
    shSize := st.header.dynsymExt.sz,
    shLink := (weR3 st).2, shInfo := lastLocalDynsym (dynsymListOf st) + 1,
    shAddralign := 8, shEntsize := 24 }

def weR4 (st : NsoState) : List Shdr × Nat :=
  insertShdr (writeElfKnownFixed st) (weR3 st).1 (sDynsymOf st) false

/-- The `.dynamic` section header record. -/
def sDynamicOf (st : NsoState) : Shdr :=
  { shName := (writeElfTbl st).getOffset ".dynamic", shType := SHT_DYNAMIC,
    shFlags := SHF_ALLOC + SHF_WRITE, shAddr := (writeElfDynPhdr st).pVaddr,
    shOffset := (writeElfDynPhdr st).pOffset, shSize := (writeElfDynPhdr st).pFilesz,
    shLink := (weR3 st).2,
    shInfo := 0, shAddralign := (writeElfDynPhdr st).pAlign, shEntsize := 16 }

def weR5 (st : NsoState) : List Shdr × Nat :=
  insertShdr (writeElfKnownFixed st) (weR4 st).1 (sDynamicOf st) false

/-- The `.rela.dyn` section header record. -/
def sRelaDynOf (st : NsoState) : Shdr :=
  { shName := (writeElfTbl st).getOffset ".rela.dyn", shType := SHT_RELA,
    shFlags := SHF_ALLOC, shAddr := st.dynInfo.rela,
    shOffset := vaddrToFoffset (writeElfLoads st) st.dynInfo.rela,
    shSize := st.dynInfo.relasz,
    shLink := (weR4 st).2, shInfo := 0, shAddralign := 8, shEntsize := 24 }

def weR6 (st : NsoState) : List Shdr × Nat :=
  insertShdr (writeElfKnownFixed st) (weR5 st).1 (sRelaDynOf st) false

/-- The `.plt` section header record. -/
def sPltOf (st : NsoState) : Shdr :=
  { shName := (writeElfTbl st).getOffset ".plt", shType := SHT_PROGBITS,
    shFlags := SHF_ALLOC + SHF_EXECINSTR, shAddr := pltAddrOf st,
    shOffset := vaddrToFoffset (writeElfLoads st) (pltAddrOf st), shSize := pltSizeOf st,
    shLink := 0, shInfo := 0, shAddralign := 16, shEntsize := 16 }

def weR7 (st : NsoState) : List Shdr × Nat :=
  insertCond (writeElfKnownFixed st) (presentsOf st).plt (weR6 st).1 (sPltOf st) true

/-- The `.got` section header record. -/
def sGotOf (st : NsoState) : Shdr :=
  { shName := (writeElfTbl st).getOffset ".got", shType := SHT_PROGBITS,
    shFlags := SHF_ALLOC + SHF_WRITE, shAddr := gotAddrOf st (jumpSlotEnd st),
    shOffset := vaddrToFoffset (writeElfLoads st) (gotAddrOf st (jumpSlotEnd st)),
    shSize := globDatEnd st (gotAddrOf st (jumpSlotEnd st)) - gotAddrOf st (jumpSlotEnd st),
    shLink := 0, shInfo := 0, shAddralign := 8, shEntsize := 8 }

/-- The `.got.plt` section header record. -/
def sGotPltOf (st : NsoState) : Shdr :=
  { shName := (writeElfTbl st).getOffset ".got.plt", shType := SHT_PROGBITS,
    shFlags := SHF_ALLOC + SHF_WRITE, shAddr := st.dynInfo.pltgot,
    shOffset := vaddrToFoffset (writeElfLoads st) st.dynInfo.pltgot,
    shSize := sub64 (jumpSlotEnd st) st.dynInfo.pltgot, shLink := 0, shInfo := 0,
    shAddralign := 8, shEntsize := 8 }

/-- The `.rela.plt` section header record (links to the `.dynsym` and
`.plt` indices returned by their insertions). -/
def sRelaPltOf (st : NsoState) : Shdr :=
  { shName := (writeElfTbl st).getOffset ".rela.plt", shType := SHT_RELA,
    shFlags := SHF_ALLOC + (if (weR7 st).2 ≠ SHN_UNDEF then SHF_INFO_LINK else 0),
    shAddr := st.dynInfo.jmprel,
    shOffset := vaddrToFoffset (writeElfLoads st) st.dynInfo.jmprel,
    shSize := st.dynInfo.pltrelsz, shLink := (weR4 st).2, shInfo := (weR7 st).2,
    shAddralign := 8, shEntsize := 24 }

/-- The `.init_array` section header record. -/
def sInitArrayOf (st : NsoState) : Shdr :=
  { shName := (writeElfTbl st).getOffset ".init_array",
    shType := SHT_INIT_ARRAY, shFlags := SHF_ALLOC + SHF_WRITE,
    shAddr := st.dynInfo.init_array,
    shOffset := vaddrToFoffset (writeElfLoads st) st.dynInfo.init_array,
    shSize := st.dynInfo.init_arraysz, shLink := 0, shInfo := 0, shAddralign := 8,
    shEntsize := 0 }

/-- The `.fini_array` section header record. -/
def sFiniArrayOf (st : NsoState) : Shdr :=
  { shName := (writeElfTbl st).getOffset ".fini_array",
    shType := SHT_FINI_ARRAY, shFlags := SHF_ALLOC + SHF_WRITE,
    shAddr := st.dynInfo.fini_array,
    shOffset := vaddrToFoffset (writeElfLoads st) st.dynInfo.fini_array,
    shSize := st.dynInfo.fini_arraysz, shLink := 0, shInfo := 0, shAddralign := 8,
    shEntsize := 0 }

/-- The `.hash` section header record. -/
def sHashOf (st : NsoState) : Shdr :=
  { shName := (writeElfTbl st).getOffset ".hash", shType := SHT_HASH,
    shFlags := SHF_ALLOC, shAddr := st.dynInfo.hash,
    shOffset := vaddrToFoffset (writeElfLoads st) st.dynInfo.hash, shSize := hashLenOf st,
    shLink := (weR4 st).2, shInfo := 0, shAddralign := 8, shEntsize := 4 }

/-- The `.gnu.hash` section header record. -/
def sGnuHashOf (st : NsoState) : Shdr :=
  { shName := (writeElfTbl st).getOffset ".gnu.hash", shType := SHT_GNU_HASH,
    shFlags := SHF_ALLOC, shAddr := st.dynInfo.gnu_hash,
    shOffset := vaddrToFoffset (writeElfLoads st) st.dynInfo.gnu_hash,
    shSize := gnuHashLenOf st,
    shLink := (weR4 st).2, shInfo := 0, shAddralign := 8, shEntsize := 4 }

/-- The `.note` section header record. -/
def sNoteOf (st : NsoState) : Shdr :=
  { shName := (writeElfTbl st).getOffset ".note", shType := SHT_NOTE,
    shFlags := SHF_ALLOC, shAddr := st.noteOff.getD 0,
    shOffset := vaddrToFoffset (writeElfLoads st) (st.noteOff.getD 0),
    shSize := 12 + readU32 st.image (st.noteOff.getD 0 + 4) + readU32 st.image
      (st.noteOff.getD 0),
    shLink := 0, shInfo := 0, shAddralign := 4, shEntsize := 0 }

/-- The `.eh_frame_hdr` section header record. -/
def sEhHdrOf (st : NsoState) : Shdr :=
  { shName := (writeElfTbl st).getOffset ".eh_frame_hdr", shType := SHT_PROGBITS,
    shFlags := SHF_ALLOC, shAddr := st.ehHdrAddr,
    shOffset := vaddrToFoffset (writeElfLoads st) st.ehHdrAddr, shSize := writeElfEhSize st,
    shLink := 0, shInfo := 0, shAddralign := 4, shEntsize := 0 }

/-- The `.eh_frame` section header record. -/
def sEhFrameOf (st : NsoState) : Shdr :=
  { shName := (writeElfTbl st).getOffset ".eh_frame", shType := SHT_PROGBITS,
    shFlags := SHF_ALLOC,
    shAddr := (st.ehHdrAddr + ((measuredOf st).getD (0, 0)).1) % 18446744073709551616,
    shOffset := vaddrToFoffset (writeElfLoads st)
      ((st.ehHdrAddr + ((measuredOf st).getD (0, 0)).1) % 18446744073709551616),
    shSize := alignUp ((measuredOf st).getD (0, 0)).2 16, shLink := 0, shInfo := 0,
    shAddralign := 4, shEntsize := 0 }

/-- One conditional, possibly ordered, section insertion step:
(condition, record, ordered). -/
abbrev InsertStep : Type := Bool × Shdr × Bool

/-- Run a list of conditional insertion steps left to right. -/
def runSteps (known : List (Nat × Shdr)) (arr : List Shdr) : List InsertStep → List Shdr
  | [] => arr
  | (c, s, o) :: rest => runSteps known (insertCond known c arr s o).1 rest

/-- The insertion steps after `.plt`, up to (excluding) `.shstrtab`,
in the C order. -/
def weTailSteps (st : NsoState) : List InsertStep :=
  [((presentsOf st).got, sGotOf st, true),
   ((presentsOf st).gotPlt, sGotPltOf st, true),
   ((presentsOf st).relaPlt, sRelaPltOf st, false),
   ((presentsOf st).initArray, sInitArrayOf st, true),
   ((presentsOf st).finiArray, sFiniArrayOf st, true),
   ((presentsOf st).hash, sHashOf st, false),
   ((presentsOf st).gnuHash, sGnuHashOf st, false),
   ((presentsOf st).note, sNoteOf st, false),
   ((presentsOf st).eh, sEhHdrOf st, true),
   ((presentsOf st).eh, sEhFrameOf st, true)]

def weR17 (st : NsoState) : List Shdr :=
  runSteps (writeElfKnownFixed st) (weR7 st).1 (weTailSteps st)

/-- The `.shstrtab` section header record. -/
def sShstrtabOf (st : NsoState) : Shdr :=
  { shName := (writeElfTbl st).getOffset ".shstrtab", shType := SHT_STRTAB,
    shFlags := 0, shAddr := 0, shOffset := writeElfShstrOff st,
    shSize := (writeElfTbl st).watermark,
    shLink := 0, shInfo := 0, shAddralign := 1, shEntsize := 0 }

def weR18 (st : NsoState) : List Shdr × Nat :=
  insertShdr (writeElfKnownFixed st) (weR17 st) (sShstrtabOf st) false

/-- The final section-header array together with the returned indices
`(dynstr, dynsym, plt, shstrndx)`, following the C insertion order
exactly. -/
def writeElfShdrs (st : NsoState) : List Shdr × Nat × Nat × Nat × Nat :=
  ((weR18 st).1, (weR3 st).2, (weR4 st).2, (weR7 st).2, (weR18 st).2)

/-! ### WriteElf: output buffer -/

def serializePhdr (p : Phdr) : Bytes := fun k =>
  if k < 4 then leByte p.pType k
  else if k < 8 then leByte p.pFlags (k - 4)
  else if k < 16 then leByte p.pOffset (k - 8)
  else if k < 24 then leByte p.pVaddr (k - 16)
  else if k < 32 then leByte p.pPaddr (k - 24)
  else if k < 40 then leByte p.pFilesz (k - 32)
  else if k < 48 then leByte p.pMemsz (k - 40)
  else if k < 56 then leByte p.pAlign (k - 48)
  else 0

def serializeShdr (s : Shdr) : Bytes := fun k =>
  if k < 4 then leByte s.shName k
  else if k < 8 then leByte s.shType (k - 4)
  else if k < 16 then leByte s.shFlags (k - 8)
  else if k < 24 then leByte s.shAddr (k - 16)
  else if k < 32 then leByte s.shOffset (k - 24)
  else if k < 40 then leByte s.shSize (k - 32)
  else if k < 44 then leByte s.shLink (k - 40)
  else if k < 48 then leByte s.shInfo (k - 44)
  else if k < 56 then leByte s.shAddralign (k - 48)
  else if k < 64 then leByte s.shEntsize (k - 56)
  else 0

def phdrBlock (ps : List Phdr) : Bytes := fun k => serializePhdr (ps.getD (k / 56) default) (k % 56)

def shdrBlock (arr : List Shdr) : Bytes := fun k => serializeShdr (arr.getD (k / 64) default) (k % 64)

def ehdrIdent : List Nat := [0x7f, 69, 76, 70, 2, 1, 1, 0, 0, 0, 0, 0, 0, 0, 0, 0]

def serializeEhdr (entry numShdrs shstrndx : Nat) : Bytes := fun k =>
  if k < 16 then ehdrIdent.getD k 0
  else if k < 18 then leByte ET_DYN (k - 16)
  else if k < 20 then leByte EM_AARCH64 (k - 18)
  else if k < 24 then leByte 1 (k - 20)
  else if k < 32 then leByte entry (k - 24)
  else if k < 40 then leByte 64 (k - 32)
  else if k < 48 then leByte 344 (k - 40)
  else if k < 52 then leByte 0 (k - 48)
  else if k < 54 then leByte 64 (k - 52)
  else if k < 56 then leByte 56 (k - 54)
  else if k < 58 then leByte 5 (k - 56)
  else if k < 60 then leByte 64 (k - 58)
  else if k < 62 then leByte numShdrs (k - 60)
  else if k < 64 then leByte shstrndx (k - 62)
  else 0

structure ElfOut where
  numShdrs : Nat
  phdrs : List Phdr
  shdrs : List Shdr
  dynstrNdx : Nat
  dynsymNdx : Nat
  pltNdx : Nat
  shstrndx : Nat
  shstrOff : Nat
  shstrSz : Nat
  buf : Bytes
  bufSize : Nat

/-- The emitted file's bytes: ELF header, program headers, `.shstrtab`
bytes, the three packed segment copies, and the section-header array,
each at its region. -/
def writeElfBuf (st : NsoState) : Bytes :=
  let segs := st.header.seg
  let n := writeElfNumShdrs st
  let tbl := writeElfTbl st
  let loads := writeElfLoads st
  let b1 := writeBytes zeroBytes 0
      (serializeEhdr (segs 0).memOffset n (writeElfShdrs st).2.2.2.2) 0 64
  let b2 := writeBytes b1 64 (phdrBlock (writeElfPhdrs st)) 0 280
  let b3 := writeBytes b2 (writeElfShstrOff st) tbl.bufferBytes 0 tbl.watermark
  let b4 := writeBytes b3 (loads.getD 0 default).pOffset st.image (segs 0).memOffset
      (segs 0).memSize
  let b5 := writeBytes b4 (loads.getD 1 default).pOffset st.image (segs 1).memOffset
      (segs 1).memSize
  let b6 := writeBytes b5 (loads.getD 2 default).pOffset st.image (segs 2).memOffset
      (segs 2).memSize
  writeBytes b6 344 (shdrBlock (writeElfShdrs st).1) 0 (64 * n)

/-- `NsoFile::WriteElf`: the complete emitted file. -/
def writeElf (st : NsoState) : ElfOut :=
  let segs := st.header.seg
  let n := writeElfNumShdrs st
  let tbl := writeElfTbl st
  let r := writeElfShdrs st
  { numShdrs := n
    phdrs := writeElfPhdrs st
    shdrs := r.1
    dynstrNdx := r.2.1
    dynsymNdx := r.2.2.1
    pltNdx := r.2.2.2.1
    shstrndx := r.2.2.2.2
    shstrOff := writeElfShstrOff st
    shstrSz := tbl.finalSize
    buf := writeElfBuf st
    bufSize := 344 + 64 * n + tbl.finalSize +
      (segs 0).memSize + (segs 1).memSize + (segs 2).memSize }

/-! ### Claim C10: StringTable lookup failure is the empty string -/

theorem find?_append_left {α : Type} (l1 l2 : List α) (p : α → Bool) (x : α)
    (h : l1.find? p = some x) : (l1 ++ l2).find? p = some x := by
  induction l1 with
  | nil => simp [List.find?] at h
  | cons a as ih =>
    simp only [List.cons_append]
    cases hp : p a with
    | true =>
      rw [List.find?_cons_of_pos _ hp] at h ⊢
      exact h
    | false =>
      rw [List.find?_cons_of_neg _ (by simp [hp])] at h ⊢
      exact ih h

theorem addString_lookup_preserved (t : StringTable) (a s : String) (v : Nat)
    (h : t.lookupEntry s = some v) : (t.addString a).lookupEntry s = some v := by
  unfold StringTable.addString
  split
  · exact h
  · unfold StringTable.lookupEntry at h ⊢
    obtain ⟨e, he, hev⟩ := Option.map_eq_some'.mp h
    simp only [find?_append_left _ _ _ _ he, Option.map_some', hev]

theorem fold_lookup_preserved (adds : List String) (t : StringTable) (s : String) (v : Nat)
    (h : t.lookupEntry s = some v) :
    (adds.foldl StringTable.addString t).lookupEntry s = some v := by
  induction adds generalizing t with
  | nil => exact h
  | cons a as ih => exact ih (t.addString a) (addString_lookup_preserved t a s v h)

theorem fold_keys (adds : List String) (t : StringTable) (e : String × Nat)
    (he : e ∈ (adds.foldl StringTable.addString t).entries) :
    e ∈ t.entries ∨ e.1 ∈ adds := by
  induction adds generalizing t with
  | nil => exact Or.inl he
  | cons a as ih =>
    rcases ih (t.addString a) he with h | h
    · unfold StringTable.addString at h
      split at h
      · exact Or.inl h
      · rcases List.mem_append.mp h with h2 | h2
        · exact Or.inl h2
        · simp only [List.mem_singleton] at h2
          subst h2
          exact Or.inr (List.mem_cons_self _ _)
    · exact Or.inr (List.mem_cons_of_mem _ h)

/-- C10: `StringTable::GetOffset` returns 0 for any string that was
never added, which is also the offset assigned to the empty string by
the constructor; a lookup failure is therefore indistinguishable from
the empty string, and a section header whose name was never inserted
silently receives `sh_name == 0`. -/
theorem c10_getoffset_never_added (adds : List String) (s : String)
    (h1 : s ∉ adds) (h2 : s ≠ "") :
    (adds.foldl StringTable.addString StringTable.init).getOffset s = 0 ∧
    (adds.foldl StringTable.addString StringTable.init).getOffset "" = 0 := by
  constructor
  · unfold StringTable.getOffset
    have hnone : (adds.foldl StringTable.addString StringTable.init).lookupEntry s = none := by
      unfold StringTable.lookupEntry
      rw [Option.map_eq_none']
      rw [List.find?_eq_none]
      intro e he
      rcases fold_keys adds StringTable.init e he with h | h
      · have : e = ("", 0) := by
          simpa [StringTable.init, StringTable.addString, StringTable.lookupEntry] using h
        simp [this]
        exact fun hc => h2 hc.symm
      · simp
        exact fun hc => h1 (hc ▸ h)
    rw [hnone]
    rfl
  · unfold StringTable.getOffset
    rw [fold_lookup_preserved adds StringTable.init "" 0 (by rfl)]
    rfl

/-- Witness for C10 at a concrete table. -/
theorem c10_witness :
    (".plt" ∉ [".text", ".shstrtab"] ∧ ".plt" ≠ "") ∧
    ([".text", ".shstrtab"].foldl StringTable.addString StringTable.init).getOffset ".plt" = 0 ∧
    ([".text", ".shstrtab"].foldl StringTable.addString StringTable.init).getOffset "" = 0 :=
  ⟨⟨by decide, by decide⟩,
   c10_getoffset_never_added [".text", ".shstrtab"] ".plt" (by decide) (by decide)⟩

/-! ### Claim C4: ResolvePlt -/

/-- A 48-byte buffer whose masked resolver pattern sits at offset 8. -/
def pltBuf : Bytes := fun k => if 8 ≤ k ∧ k < 40 then pltPatternByte (k - 8) else 0

def di4 : DynInfo := { (default : DynInfo) with pltrelsz := 24 }

/-- C4 counterexample: with `pltrelsz = 24` (one `Elf64_Rela`), the code
sets `plt_info.size` to `32 + 16·N = 48` - the resolver thunk occupies
two 16-byte slots - not the claimed `16 + 16·N = 32`. -/
theorem c4_counterexample :
    resolvePlt di4 pltBuf 0 48 = some (8, 48) ∧ 48 ≠ 16 + 16 * (24 / 24) := by
  constructor
  · decide
  · decide

/-- C4 (amended): when `pltrelsz = 0` the PLT is absent; when the masked
pattern occurs, `plt_info.addr` is the image offset (`base + o`) of the
FIRST occurrence and `plt_info.size = 32 + 16·N` with
`N = pltrelsz / sizeof(Elf64_Rela)` (the 8-instruction resolver fills
two 16-byte slots). -/
theorem c4_resolve_plt (di : DynInfo) (img : Bytes) (base len : Nat) :
    (di.pltrelsz = 0 → resolvePlt di img base len = none) ∧
    (∀ o, di.pltrelsz ≠ 0 → memmemMasked img base len = some o →
      resolvePlt di img base len = some (base + o, 32 + 16 * (di.pltrelsz / 24)) ∧
      pltMatchAt img base o = true ∧ ∀ k, k < o → pltMatchAt img base k = false) := by
  constructor
  · intro h
    unfold resolvePlt
    rw [if_neg (by simp [h])]
  · intro o hnz hfound
    have hspec : pltMatchAt img base o = true ∧ ∀ k, k < o → pltMatchAt img base k = false := by
      unfold memmemMasked at hfound
      by_cases hl : 32 ≤ len
      · rw [if_pos hl] at hfound
        obtain ⟨_, h2, h3⟩ := scanFirst_spec _ _ _ _ hfound
        exact ⟨h2, fun k hk => h3 k (Nat.zero_le k) hk⟩
      · rw [if_neg hl] at hfound
        cases hfound
    refine ⟨?_, hspec⟩
    unfold resolvePlt
    rw [if_pos hnz, hfound]

/-- Witness for C4 at the concrete buffer. -/
theorem c4_witness :
    (24 : Nat) ≠ 0 ∧ memmemMasked pltBuf 0 48 = some 8 ∧
    resolvePlt di4 pltBuf 0 48 = some (0 + 8, 32 + 16 * (24 / 24)) ∧
    pltMatchAt pltBuf 0 8 = true ∧ ∀ k, k < 8 → pltMatchAt pltBuf 0 k = false :=
  ⟨by decide, by decide,
   (c4_resolve_plt di4 pltBuf 0 48).2 8 (by decide) (by decide)⟩

/-! ### Claim C7: the .init ret scan has no bound -/

/-- An image fragment with a few AArch64 instructions and no `ret`
(0xd65f03c0) anywhere within its 32 bytes. -/
def img7 : Bytes :=
  writeU32 (writeU32 (writeU32 zeroBytes 0 0xa9bf7bf0) 4 0x91000000) 28 0xd503201f

/-- C7: with `dyn_info.init = 0` on this 32-byte image, the linear scan
for the first `ret` finds nothing inside the image - the bounded model
returns `none` and every in-bounds word differs from the opcode.  The C
loop (`for (int i = 0;; i++)` in WriteElf) has no budget, so at this
input it reads past the image buffer instead of disabling `.init`. -/
theorem c7_init_scan_exhausts_image :
    initRetScan img7 0 32 = none ∧
    ∀ i : Fin 8, readU32 img7 (4 * i.val) ≠ 0xd65f03c0 := by
  constructor
  · decide
  · decide

/-! ### Claim C2: PT_DYNAMIC size -/

/-- The source dynamic table, read entry by entry from the image
(including any entries at or beyond the terminator, up to the fuel). -/
def rawDynEntries (img : Bytes) (off : Nat) : Nat → List (Nat × Nat)
  | 0 => []
  | n + 1 => (readU64 img off, readU64 img (off + 8)) :: rawDynEntries img (off + 16) n

/-- The loader's walk stops exactly at the first zero tag of the source
table. -/
theorem dynWalk_eq_takeWhile (img : Bytes) (fuel : Nat) : ∀ off,
    dynWalk img off fuel = (rawDynEntries img off fuel).takeWhile (fun e => e.1 != 0) := by
  induction fuel with
  | zero => intro off; rfl
  | succ n ih =>
    intro off
    unfold dynWalk rawDynEntries
    rw [List.takeWhile_cons]
    by_cases h : readU64 img off = 0
    · simp [h]
    · simp [h, ih (off + 16)]

/-- C2: the PT_DYNAMIC program header's `p_filesz` equals
`(count of nonzero-tag entries before the terminator + 1) * sizeof(Elf64_Dyn)`
(the re-walk counts the entries before the zero tag and the `dyn_size`
initialisation accounts for the terminator), and `p_filesz == p_memsz`. -/
theorem c2_pt_dynamic_filesz (st : NsoState) :
    ((writeElf st).phdrs.getD 3 default).pType = PT_DYNAMIC ∧
    ((writeElf st).phdrs.getD 3 default).pFilesz =
      (((rawDynEntries st.image st.dynamicOff (dynFuel st.imageSize)).takeWhile
          (fun e => e.1 != 0)).length + 1) * 16 ∧
    ((writeElf st).phdrs.getD 3 default).pFilesz =
      ((writeElf st).phdrs.getD 3 default).pMemsz := by
  have hph : (writeElf st).phdrs.getD 3 default = writeElfDynPhdr st := by
    simp [writeElf, writeElfPhdrs, writeElfLoads]
  rw [hph]
  unfold writeElfDynPhdr
  refine ⟨rfl, ?_, rfl⟩
  show 16 * ((dynEntriesOf st).length + 1) = _
  rw [dynEntriesOf, dynWalk_eq_takeWhile]
  ring

/-! ### Claim C1: PT_LOAD contents -/

/-- The packed segment regions of the output buffer hold exactly the
image bytes of their segments: all other writes (ELF header, program
headers, section headers, `.shstrtab`) land strictly below
`shstrOff + shstrSz`, where the first segment region begins. -/
theorem writeElfBuf_seg (st : NsoState) (i j : Nat) (hi : i < 3)
    (hj : j < (st.header.seg i).memSize) :
    writeElfBuf st (((writeElfLoads st).getD i default).pOffset + j) =
      st.image ((st.header.seg i).memOffset + j) % 256 := by
  have hso : writeElfShstrOff st = 344 + 64 * writeElfNumShdrs st := rfl
  have hfs : (writeElfTbl st).finalSize = alignUp (writeElfTbl st).watermark 0x10 := rfl
  have hwm : (writeElfTbl st).watermark ≤ alignUp (writeElfTbl st).watermark 0x10 := by
    unfold alignUp
    omega
  have hloads : writeElfLoads st =
      [ptLoadPhdr st.header.seg 0 (writeElfShstrOff st + (writeElfTbl st).finalSize),
       ptLoadPhdr st.header.seg 1
         (writeElfShstrOff st + (writeElfTbl st).finalSize + (st.header.seg 0).memSize),
       ptLoadPhdr st.header.seg 2
         (writeElfShstrOff st + (writeElfTbl st).finalSize + (st.header.seg 0).memSize +
           (st.header.seg 1).memSize)] := rfl
  interval_cases i
  · unfold writeElfBuf
    simp only [hloads, List.getD_cons_zero, List.getD_cons_succ, ptLoadPhdr,
      writeBytes, hso]
    rw [if_neg (by omega), if_neg (by omega), if_neg (by omega),
        if_pos (by constructor <;> omega)]
    congr 2
    omega
  · unfold writeElfBuf
    simp only [hloads, List.getD_cons_zero, List.getD_cons_succ, ptLoadPhdr,
      writeBytes, hso]
    rw [if_neg (by omega), if_neg (by omega),
        if_pos (by constructor <;> omega)]
    congr 2
    omega
  · unfold writeElfBuf
    simp only [hloads, List.getD_cons_zero, List.getD_cons_succ, ptLoadPhdr,
      writeBytes, hso]
    rw [if_neg (by omega), if_pos (by constructor <;> omega)]
    congr 2
    omega

/-- C1: each of the three PT_LOAD program headers carries
`p_vaddr = seg.mem_offset`, `p_filesz = seg.mem_size`, the file bytes at
`[p_offset, p_offset + p_filesz)` are exactly
`image[seg.mem_offset .. seg.mem_offset + seg.mem_size)`, and the data
segment's `p_memsz` additionally covers the `bss_align`-byte BSS tail. -/
theorem c1_ptload_bytes (st : NsoState) (i : Nat) (hi : i < 3) :
    ((writeElf st).phdrs.getD i default).pType = PT_LOAD ∧
    ((writeElf st).phdrs.getD i default).pVaddr = (st.header.seg i).memOffset ∧
    ((writeElf st).phdrs.getD i default).pFilesz = (st.header.seg i).memSize ∧
    ((writeElf st).phdrs.getD i default).pMemsz =
      (if i = 2 then (st.header.seg i).memSize + (st.header.seg i).bssAlign
       else (st.header.seg i).memSize) ∧
    ∀ j, j < (st.header.seg i).memSize →
      (writeElf st).buf (((writeElf st).phdrs.getD i default).pOffset + j) =
        st.image ((st.header.seg i).memOffset + j) % 256 := by
  have hph : ∀ k, k < 3 → (writeElf st).phdrs.getD k default =
      (writeElfLoads st).getD k default := by
    intro k hk
    have : (writeElf st).phdrs = writeElfLoads st ++ [writeElfDynPhdr st, writeElfEhPhdr st] :=
      rfl
    rw [this]
    have hlen : (writeElfLoads st).length = 3 := rfl
    rw [List.getD_eq_getElem?_getD, List.getD_eq_getElem?_getD]
    rw [List.getElem?_append, if_pos (by omega)]
  have hbuf : (writeElf st).buf = writeElfBuf st := rfl
  rw [hph i hi, hbuf]
  have hload : (writeElfLoads st).getD i default =
      ptLoadPhdr st.header.seg i (((writeElfLoads st).getD i default).pOffset) := by
    interval_cases i <;> rfl
  constructor
  · rw [hload]; rfl
  constructor
  · rw [hload]; rfl
  constructor
  · rw [hload]; rfl
  constructor
  · rw [hload]
    interval_cases i <;> simp [ptLoadPhdr]
  · intro j hj
    exact writeElfBuf_seg st i j hi hj

/-! ### Concrete inputs for the counterexamples and witnesses -/

/-- An LZ4 oracle that reports 5 decoded bytes (placing `0x10` at byte 4,
so the decoded text segment carries a MOD pointer to offset 0x10). -/
def lz4c5 : Lz4Oracle := fun _ _ _ => (5, fun i => if i = 4 then 0x10 else 0)

/-- An LZ4 oracle that always fails. -/
def lz4fail : Lz4Oracle := fun _ _ _ => (-1, zeroBytes)

/-- A 0x140-byte NSO with a compressed text segment (`flags = 1`),
`text.mem_size = 0x10`, and a MOD header in the rodata segment. -/
def fileC5 : Bytes :=
  writeU32 (writeU8 (writeU8 (writeU8 (writeU8
  (writeU32 (writeU32 (writeU32
  (writeU32 (writeU32 (writeU32 (writeU32
  (writeU32 (writeU32 (writeU32 (writeU32
  (writeU32 (writeU32 (writeU32 (writeU32
  (writeU32
  (writeU8 (writeU8 (writeU8 (writeU8 zeroBytes
    0 78) 1 83) 2 79) 3 48)
    0xc 1)
    0x10 0x100) 0x14 0) 0x18 0x10) 0x1c 0)
    0x20 0x110) 0x24 0x10) 0x28 0x20) 0x2c 1)
    0x30 0x130) 0x34 0x30) 0x38 0x10) 0x3c 0)
    0x60 8) 0x64 0x20) 0x68 0x10)
    0x110 77) 0x111 79) 0x112 68) 0x113 48)
    0x114 0x20

/-! ### Claim C5: decompression length checking -/

/-- C5 counterexample: the text segment of `fileC5` is compressed and
declares `mem_size = 16`, the LZ4 oracle decodes only 5 bytes (a
positive length different from `mem_size`), yet `Load` succeeds:
`NsoFile::Decompress` only prints a diagnostic on the mismatch and
returns `len > 0`. -/
theorem c5_counterexample :
    (parseNsoHeader fileC5).flags &&& 1 ≠ 0 ∧
    (parseNsoHeader fileC5).seg0.memSize = 16 ∧
    (lz4c5 (parseNsoHeader fileC5).seg0.fileOffset ((parseNsoHeader fileC5).fsz 0)
        (parseNsoHeader fileC5).seg0.memSize).1 = 5 ∧
    (loadFile lz4c5 fileC5 0x140).isSome = true := by
  refine ⟨by decide, by decide, by decide, by decide⟩

/-- C5 (amended): a compressed segment makes `Load` fail exactly when
`LZ4_decompress_safe` returns a non-positive length; a positive decoded
length different from `mem_size` is accepted with only a diagnostic. -/
theorem c5_decompress_fail (lz4 : Lz4Oracle) (file : Bytes) (fsz : Nat)
    (hm : 0x100 ≤ fsz ∧ isNsoMagic file)
    (i : Nat) (hi : i < 3)
    (hc : (parseNsoHeader file).flags &&& (1 <<< i) ≠ 0)
    (hr : (lz4 ((parseNsoHeader file).seg i).fileOffset ((parseNsoHeader file).fsz i)
        ((parseNsoHeader file).seg i).memSize).1 ≤ 0)
    (hprev : ∀ j, j < i → (parseNsoHeader file).flags &&& (1 <<< j) ≠ 0 →
        0 < (lz4 ((parseNsoHeader file).seg j).fileOffset ((parseNsoHeader file).fsz j)
            ((parseNsoHeader file).seg j).memSize).1) :
    loadFile lz4 file fsz = none := by
  unfold loadFile
  rw [if_pos hm]
  have hfail : ∀ img, procSeg lz4 file (parseNsoHeader file) i img = none := by
    intro img
    unfold procSeg
    rw [if_pos hc, if_neg (by omega)]
  have hstep : ∀ j img, j < i →
      ∃ img2, procSeg lz4 file (parseNsoHeader file) j img = some img2 := by
    intro j img hj
    unfold procSeg
    by_cases hcj : (parseNsoHeader file).flags &&& (1 <<< j) ≠ 0
    · rw [if_pos hcj, if_pos (hprev j hj hcj)]
      exact ⟨_, rfl⟩
    · rw [if_neg hcj]
      exact ⟨_, rfl⟩
  interval_cases i
  · simp only [procSegs, hfail]
  · obtain ⟨i0, h0⟩ := hstep 0 zeroBytes (by omega)
    simp only [procSegs, h0, hfail]
  · obtain ⟨i0, h0⟩ := hstep 0 zeroBytes (by omega)
    obtain ⟨i1, h1⟩ := hstep 1 i0 (by omega)
    simp only [procSegs, h0, h1, hfail]

/-- Witness for the amended C5: a failing oracle on `fileC5` aborts the
load. -/
theorem c5_witness : loadFile lz4fail fileC5 0x140 = none :=
  c5_decompress_fail lz4fail fileC5 0x140 ⟨by omega, by decide⟩ 0 (by omega)
    (by decide) (by decide) (fun j hj _ => absurd hj (Nat.not_lt_zero j))

/-- A 0x140-byte uncompressed NSO whose rodata segment starts at 0x18,
NOT at `text.mem_offset + text.mem_size = 0x10`; the loader copies the
offsets from the header without checking contiguity. -/
def fileC8 : Bytes :=
  writeU32 (writeU8 (writeU8 (writeU8 (writeU8 (writeU32
  (writeU32 (writeU32 (writeU32
  (writeU32 (writeU32 (writeU32 (writeU32
  (writeU32 (writeU32 (writeU32 (writeU32
  (writeU32 (writeU32 (writeU32 (writeU32
  (writeU8 (writeU8 (writeU8 (writeU8 zeroBytes
    0 78) 1 83) 2 79) 3 48)
    0x10 0x100) 0x14 0) 0x18 0x10) 0x1c 0)
    0x20 0x118) 0x24 0x18) 0x28 8) 0x2c 1)
    0x30 0x130) 0x34 0x30) 0x38 0x10) 0x3c 0)
    0x60 0x10) 0x64 8) 0x68 0x10)
    0x104 8)
    0x108 77) 0x109 79) 0x10a 68) 0x10b 48)
    0x10c 0x28

/-- A 0x130-byte uncompressed NSO whose text `segment_file_sizes` entry
(0x18) exceeds `text.mem_size` (0x10), so loading fills the gap byte at
image offset 0x10 with the file's 0xAA. -/
def fileC9 : Bytes :=
  writeU8 (writeU32 (writeU8 (writeU8 (writeU8 (writeU8 (writeU32
  (writeU32 (writeU32 (writeU32
  (writeU32 (writeU32 (writeU32 (writeU32
  (writeU32 (writeU32 (writeU32 (writeU32
  (writeU32 (writeU32 (writeU32 (writeU32
  (writeU8 (writeU8 (writeU8 (writeU8 zeroBytes
    0 78) 1 83) 2 79) 3 48)
    0x10 0x100) 0x14 0) 0x18 0x10) 0x1c 0)
    0x20 0x118) 0x24 0x18) 0x28 8) 0x2c 1)
    0x30 0x120) 0x34 0x20) 0x38 0x10) 0x3c 0)
    0x60 0x18) 0x64 8) 0x68 0x10)
    0x104 8)
    0x108 77) 0x109 79) 0x10a 68) 0x10b 48)
    0x10c 0x18)
    0x110 0xaa

/-- A 0x160-byte uncompressed NSO whose dynamic table carries
`DT_JMPREL = 0x10` and `DT_PLTRELSZ = 24` but no `DT_PLTGOT` and no
jump-slot relocation. -/
def fileC3 : Bytes :=
  writeU64 (writeU64 (writeU64 (writeU64
  (writeU32 (writeU8 (writeU8 (writeU8 (writeU8 (writeU32
  (writeU32 (writeU32 (writeU32
  (writeU32 (writeU32 (writeU32 (writeU32
  (writeU32 (writeU32 (writeU32 (writeU32
  (writeU32 (writeU32 (writeU32 (writeU32
  (writeU8 (writeU8 (writeU8 (writeU8 zeroBytes
    0 78) 1 83) 2 79) 3 48)
    0x10 0x100) 0x14 0) 0x18 0x10) 0x1c 0)
    0x20 0x110) 0x24 0x10) 0x28 0x20) 0x2c 1)
    0x30 0x130) 0x34 0x30) 0x38 0x30) 0x3c 0)
    0x60 0x10) 0x64 0x20) 0x68 0x30)
    0x104 8)
    0x108 77) 0x109 79) 0x10a 68) 0x10b 48)
    0x10c 0x28)
    0x130 23) 0x138 0x10) 0x140 2) 0x148 24

/-! ### Claim C8: segment contiguity is not an invariant -/

/-- C8 counterexample: `fileC8` loads successfully (as an NSO) although
`segments[1].mem_offset = 0x18 ≠ 0x10 = segments[0].mem_offset +
segments[0].mem_size`; NSO/NRO offsets are taken from the container
header unchecked. -/
theorem c8_counterexample :
    (loadFile lz4fail fileC8 0x140).isSome = true ∧
    ((loadFile lz4fail fileC8 0x140).getD default).header.seg1.memOffset ≠
      ((loadFile lz4fail fileC8 0x140).getD default).header.seg0.memOffset +
        ((loadFile lz4fail fileC8 0x140).getD default).header.seg0.memSize := by
  refine ⟨by decide, by decide⟩

/-! ### Claim C9: the first rewrite can differ from its input -/

def st9a : NsoState := (loadFile lz4fail fileC9 0x130).getD default

def out9a : Bytes × Nat := writeUncompressedNso st9a

def st9b : NsoState := (loadFile lz4fail out9a.1 out9a.2).getD default

def out9b : Bytes × Nat := writeUncompressedNso st9b

/-- C9 counterexample: on `fileC9` both loads succeed, but the second
uncompressed-NSO output differs from the first at file offset 0x110:
the first output inherits the gap byte 0xAA that the original file's
over-long `segment_file_sizes[0]` deposited between text and rodata,
while reloading with the rewritten (`= mem_size`) file sizes zeroes it. -/
theorem c9_counterexample :
    (loadFile lz4fail fileC9 0x130).isSome = true ∧
    (loadFile lz4fail out9a.1 out9a.2).isSome = true ∧
    out9b.2 = out9a.2 ∧
    out9a.1 0x110 = 0xaa ∧ out9b.1 0x110 = 0 := by
  refine ⟨by decide, by decide, by decide, by decide, by decide⟩

/-! ### Claim C3 counterexample -/

def stc3 : NsoState := (loadFile lz4fail fileC3 0x160).getD default

/-- C3 counterexample: `fileC3` loads with `dyn_info.jmprel = 0x10 ≠ 0`
and `dyn_info.pltrelsz = 24 ≠ 0`, yet the emitted ELF has no section
whatsoever with `sh_addr = jmprel` and `sh_size = pltrelsz`: `.rela.plt`
additionally requires a jump-slot relocation and `DT_PLTGOT`. -/
theorem c3_counterexample :
    (loadFile lz4fail fileC3 0x160).isSome = true ∧
    stc3.dynInfo.jmprel = 0x10 ∧ stc3.dynInfo.pltrelsz = 24 ∧
    (writeElf stc3).shdrs.all (fun s => !(s.shAddr == 0x10 && s.shSize == 24)) = true := by
  refine ⟨by decide, by decide, by decide, by decide⟩

/-- Witness for C1 at the concrete loaded state `stc3` (data segment). -/
theorem c1_witness :
    2 < 3 ∧ ((writeElf stc3).phdrs.getD 2 default).pType = PT_LOAD ∧
    ((writeElf stc3).phdrs.getD 2 default).pMemsz =
      (stc3.header.seg 2).memSize + (stc3.header.seg 2).bssAlign ∧
    (writeElf stc3).buf (((writeElf stc3).phdrs.getD 2 default).pOffset + 0) =
      stc3.image ((stc3.header.seg 2).memOffset + 0) % 256 :=
  ⟨by omega, (c1_ptload_bytes stc3 2 (by omega)).1,
   by
    have h := (c1_ptload_bytes stc3 2 (by omega)).2.2.2.1
    simpa using h,
   (c1_ptload_bytes stc3 2 (by omega)).2.2.2.2 0 (by decide)⟩

/-! ### Claim C6: raw-MOD requires exactly 4 distinct section indices -/

theorem adjUnique_mem (l : List Nat) (x : Nat) : x ∈ adjUnique l ↔ x ∈ l := by
  induction l with
  | nil => simp [adjUnique]
  | cons a t ih =>
    cases t with
    | nil => simp [adjUnique]
    | cons b r =>
      unfold adjUnique
      by_cases h : a = b
      · rw [if_pos h]
        subst h
        rw [ih]
        simp
      · rw [if_neg h]
        simp only [List.mem_cons] at ih ⊢
        rw [ih]

theorem adjUnique_nodup (l : List Nat) (h : l.Pairwise (· ≤ ·)) : (adjUnique l).Nodup := by
  induction l with
  | nil => simp [adjUnique]
  | cons a t ih =>
    cases t with
    | nil => simp [adjUnique]
    | cons b r =>
      unfold adjUnique
      rw [List.pairwise_cons] at h
      obtain ⟨ha, hbr⟩ := h
      by_cases hab : a = b
      · rw [if_pos hab]
        exact ih hbr
      · rw [if_neg hab]
        rw [List.nodup_cons]
        refine ⟨?_, ih hbr⟩
        intro hmem
        rw [adjUnique_mem] at hmem
        rcases List.mem_cons.mp hmem with h1 | h1
        · exact hab h1
        · have hle : a ≤ b := ha b (List.mem_cons_self b r)
          have hge : b ≤ a := (List.pairwise_cons.mp hbr).1 a h1
          exact hab (Nat.le_antisymm hle hge)

theorem mem_insertSorted (x y : Nat) (l : List Nat) :
    y ∈ insertSorted x l ↔ y = x ∨ y ∈ l := by
  induction l with
  | nil => simp [insertSorted]
  | cons a r ih =>
    unfold insertSorted
    by_cases h : x ≤ a
    · rw [if_pos h]
      simp
    · rw [if_neg h]
      simp only [List.mem_cons, ih]
      tauto

theorem sorted_insertSorted (x : Nat) (l : List Nat) (h : l.Pairwise (· ≤ ·)) :
    (insertSorted x l).Pairwise (· ≤ ·) := by
  induction l with
  | nil => simp [insertSorted]
  | cons a r ih =>
    rw [List.pairwise_cons] at h
    obtain ⟨ha, hr⟩ := h
    unfold insertSorted
    by_cases hxa : x ≤ a
    · rw [if_pos hxa]
      rw [List.pairwise_cons]
      refine ⟨?_, List.pairwise_cons.mpr ⟨ha, hr⟩⟩
      intro b hb
      rcases List.mem_cons.mp hb with rfl | hb2
      · exact hxa
      · exact Nat.le_trans hxa (ha b hb2)
    · rw [if_neg hxa]
      rw [List.pairwise_cons]
      refine ⟨?_, ih hr⟩
      intro b hb
      rcases (mem_insertSorted x b r).mp hb with rfl | hb2
      · omega
      · exact ha b hb2

theorem mem_sortNat (l : List Nat) (x : Nat) : x ∈ sortNat l ↔ x ∈ l := by
  induction l with
  | nil => simp [sortNat]
  | cons a r ih =>
    unfold sortNat at ih ⊢
    rw [List.foldr_cons, mem_insertSorted, ih]
    simp

theorem sorted_sortNat (l : List Nat) : (sortNat l).Pairwise (· ≤ ·) := by
  induction l with
  | nil => simp [sortNat]
  | cons a r ih =>
    unfold sortNat at ih ⊢
    rw [List.foldr_cons]
    exact sorted_insertSorted a _ ih

/-- The code's sort-then-unique count equals the number of distinct
values. -/
theorem adjUnique_sortNat_length (l : List Nat) :
    (adjUnique (sortNat l)).length = l.dedup.length := by
  have hnd := adjUnique_nodup _ (sorted_sortNat l)
  have hfs : (adjUnique (sortNat l)).toFinset = l.toFinset := by
    ext x
    simp only [List.mem_toFinset]
    rw [adjUnique_mem, mem_sortNat]
  calc (adjUnique (sortNat l)).length
      = (adjUnique (sortNat l)).toFinset.card :=
        (List.toFinset_card_of_nodup hnd).symm
    _ = l.toFinset.card := by rw [hfs]
    _ = l.dedup.length := List.card_toFinset l

/-- The dynamic-table offset of the raw-MOD path. -/
def rawModDynamicOff (file : Bytes) : Nat :=
  ((((readU32 file 4 : Int)) + readS32 file (readU32 file 4 + 4)).emod
    18446744073709551616).toNat

def rawModDynInfo (file : Bytes) (fsz : Nat) : DynInfo :=
  foldDynInfo (dynWalk file (rawModDynamicOff file) (dynFuel fsz))

/-- The dynsym entries a raw-MOD load would iterate
(`dynsym.size = strtab - symtab`). -/
def rawModSyms (file : Bytes) (fsz : Nat) : List SymR :=
  dynsymList file (rawModDynInfo file fsz).symtab
    (((rawModDynInfo file fsz).strtab - (rawModDynInfo file fsz).symtab) % 4294967296)

theorem modSynth_none_of_count (di : DynInfo) (hdr0 : NsoHeaderR) (img : Bytes)
    (isz modBase : Nat)
    (hcount : (seenShndx (dynsymList img di.symtab
        ((di.strtab - di.symtab) % 4294967296))).dedup.length ≠ 4) :
    modSynth di hdr0 img isz modBase = none := by
  unfold modSynth
  cases hplt : resolvePlt di img 0 isz with
  | none => rfl
  | some p =>
    simp only
    by_cases hst : di.symtab ≥ di.strtab
    · rw [if_pos hst]
    · rw [if_neg hst, if_pos (by rw [adjUnique_sortNat_length]; exact hcount)]

/-- C6: a raw-MOD input (no NSO and no NRO magic) whose dynsym carries a
number of distinct `st_shndx` values (excluding `SHN_UNDEF` and
`≥ SHN_LORESERVE`) different from 4 is rejected: `Load` returns false
with no output. -/
theorem c6_mod_shndx_count (lz4 : Lz4Oracle) (file : Bytes) (fsz : Nat)
    (h1 : ¬ (0x100 ≤ fsz ∧ isNsoMagic file = true))
    (h2 : ¬ (0x80 ≤ fsz ∧ isNroMagic file = true))
    (hcount : (seenShndx (rawModSyms file fsz)).dedup.length ≠ 4) :
    loadFile lz4 file fsz = none := by
  unfold loadFile
  rw [if_neg h1, if_neg h2]
  by_cases h8 : 8 ≤ fsz
  · rw [if_pos h8]
    unfold loadRest
    by_cases hb : readU32 file 4 + 28 > fsz
    · rw [if_pos hb]
    · rw [if_neg hb]
      by_cases hm : isModMagic file (readU32 file 4) = true
      · rw [if_neg (fun hc => hc hm)]
        have hms := modSynth_none_of_count
          (foldDynInfo (dynWalk file (rawModDynamicOff file) (dynFuel fsz)))
          default file fsz (readU32 file 4) hcount
        unfold rawModDynamicOff at hms
        simp only [kMod, ne_eq, not_true_eq_false, if_false, hms]
      · rw [if_pos hm]
  · rw [if_neg h8]

/-- A raw MOD (no outer container) whose dynsym has only 3 distinct
section indices. -/
def fileC6 : Bytes :=
  writeU8 (writeU8 (writeU8
  (writeU64 (writeU64 (writeU64 (writeU64
  (writeU32 (writeU8 (writeU8 (writeU8 (writeU8
  (writeU32 zeroBytes
    4 0x10)
    0x10 77) 0x11 79) 0x12 68) 0x13 48)
    0x14 0x20)
    0x30 6) 0x38 0x60) 0x40 5) 0x48 0xa8)
    0x66 1) 0x7e 2) 0x96 3

/-- Witness for C6: `fileC6` has 3 distinct indices and is rejected. -/
theorem c6_witness : loadFile lz4fail fileC6 0x100 = none :=
  c6_mod_shndx_count lz4fail fileC6 0x100 (by decide) (by decide) (by decide)

/-! ### Claim C8 (amended): what the raw-MOD synthesis does guarantee -/

theorem loadRest_fileType (ft : Nat) (hdr0 : NsoHeaderR) (img : Bytes) (isz : Nat)
    (st : NsoState) (h : loadRest ft hdr0 img isz = some st) : st.fileType = ft := by
  unfold loadRest at h
  by_cases hb : readU32 img 4 + 28 > isz
  · rw [if_pos hb] at h
    cases h
  · rw [if_neg hb] at h
    by_cases hm : isModMagic img (readU32 img 4) = true
    · rw [if_neg (fun hc => hc hm)] at h
      simp only [] at h
      by_cases hft : ft ≠ kMod
      · rw [if_pos hft] at h
        cases h
        rfl
      · rw [if_neg hft] at h
        cases hms : modSynth
            (foldDynInfo (dynWalk img
              ((((readU32 img 4 : Int)) + readS32 img (readU32 img 4 + 4)).emod
                18446744073709551616).toNat (dynFuel isz)))
            hdr0 img isz (readU32 img 4) with
        | none =>
          rw [hms] at h
          exact Option.noConfusion h
        | some pr =>
          rw [hms] at h
          cases h
          rfl
    · rw [if_pos hm] at h
      cases h

theorem findDataOffset_lt (syms : List SymR) (dataShndx : Nat) :
    findDataOffset syms dataShndx < 4294967296 := by
  unfold findDataOffset
  have hgen : ∀ (l : List SymR) (acc : Nat), acc < 4294967296 →
      l.foldl (fun acc s =>
        if acc = 0 ∧ s.stInfo % 16 = STT_SECTION ∧ s.stShndx = dataShndx then
          s.stValue % 4294967296
        else acc) acc < 4294967296 := by
    intro l
    induction l with
    | nil => intro acc hacc; exact hacc
    | cons s r ih =>
      intro acc hacc
      simp only [List.foldl_cons]
      apply ih
      split
      · exact Nat.mod_lt _ (by omega)
      · exact hacc
  exact hgen syms 0 (by omega)

/-- Shape of the synthesized segment table. -/
theorem modSynth_segs (di : DynInfo) (hdr0 : NsoHeaderR) (img : Bytes)
    (isz modBase : Nat) (h : NsoHeaderR) (p : Nat × Nat)
    (hs : modSynth di hdr0 img isz modBase = some (h, p)) :
    ∃ (ts : Nat) (dOff : Nat), dOff < 4294967296 ∧
      h.seg0.memOffset = 0 ∧ h.seg0.memSize = ts ∧
      h.seg1.memOffset = alignUp ts 0x1000 % 4294967296 ∧
      h.seg1.memSize = (((dOff : Int) - (alignUp ts 0x1000 % 4294967296)).emod
        4294967296).toNat ∧
      h.seg2.memOffset = dOff := by
  unfold modSynth at hs
  cases hplt : resolvePlt di img 0 isz with
  | none =>
    rw [hplt] at hs
    exact Option.noConfusion hs
  | some p2 =>
    rw [hplt] at hs
    simp only [] at hs
    by_cases hst : di.symtab ≥ di.strtab
    · rw [if_pos hst] at hs
      exact Option.noConfusion hs
    · rw [if_neg hst] at hs
      by_cases hd : (adjUnique (sortNat (seenShndx (dynsymList img di.symtab
          ((di.strtab - di.symtab) % 4294967296))))).length ≠ 4
      · rw [if_pos hd] at hs
        exact Option.noConfusion hs
      · rw [if_neg hd] at hs
        by_cases hz : findDataOffset
            (dynsymList img di.symtab ((di.strtab - di.symtab) % 4294967296))
            ((adjUnique (sortNat (seenShndx (dynsymList img di.symtab
              ((di.strtab - di.symtab) % 4294967296))))).getD 2 0) = 0
        · rw [if_pos hz] at hs
          exact Option.noConfusion hs
        · rw [if_neg hz] at hs
          rw [Option.some_inj] at hs
          obtain ⟨hh, hp⟩ := Prod.ext_iff.mp hs
          subst hh
          exact ⟨(p2.1 + p2.2) % 4294967296,
            findDataOffset
              (dynsymList img di.symtab ((di.strtab - di.symtab) % 4294967296))
              ((adjUnique (sortNat (seenShndx (dynsymList img di.symtab
                ((di.strtab - di.symtab) % 4294967296))))).getD 2 0),
            findDataOffset_lt _ _, rfl, rfl, rfl, rfl, rfl⟩

/-- The raw-MOD branch of `loadRest` preserves the synthesized segments
(the build-id copy touches only `gnu_build_id`). -/
theorem loadRest_mod_segs (hdr0 : NsoHeaderR) (img : Bytes) (isz : Nat)
    (st : NsoState) (h : loadRest kMod hdr0 img isz = some st) :
    ∃ hdr1 p, modSynth
        (foldDynInfo (dynWalk img
          ((((readU32 img 4 : Int)) + readS32 img (readU32 img 4 + 4)).emod
            18446744073709551616).toNat (dynFuel isz)))
        hdr0 img isz (readU32 img 4) = some (hdr1, p) ∧
      st.header.seg0 = hdr1.seg0 ∧ st.header.seg1 = hdr1.seg1 ∧
      st.header.seg2 = hdr1.seg2 := by
  unfold loadRest at h
  by_cases hb : readU32 img 4 + 28 > isz
  · rw [if_pos hb] at h
    cases h
  · rw [if_neg hb] at h
    by_cases hm : isModMagic img (readU32 img 4) = true
    · rw [if_neg (fun hc => hc hm)] at h
      simp only [] at h
      rw [if_neg (by simp [kMod])] at h
      cases hms : modSynth
          (foldDynInfo (dynWalk img
            ((((readU32 img 4 : Int)) + readS32 img (readU32 img 4 + 4)).emod
              18446744073709551616).toNat (dynFuel isz)))
          hdr0 img isz (readU32 img 4) with
      | none =>
        rw [hms] at h
        exact Option.noConfusion h
      | some pr =>
        rw [hms] at h
        cases h
        refine ⟨pr.1, pr.2, rfl, ?_, ?_, ?_⟩ <;>
        · cases hnote : findNote img pr.1.seg <;>
            simp only [kMod, reduceIte, hnote]
    · rw [if_pos hm] at h
      cases h

/-- The wrap-around contiguity identity. -/
theorem contig_mod (o d : Nat) (hd : d < 4294967296) :
    (o + (((d : Int) - o).emod 4294967296).toNat) % 4294967296 = d := by
  show (o + (((d : Int) - o) % 4294967296).toNat) % 4294967296 = d
  have h1 := Int.emod_nonneg ((d : Int) - o) (by norm_num : (4294967296 : Int) ≠ 0)
  have h2 := Int.emod_lt_of_pos ((d : Int) - o) (by norm_num : (0 : Int) < 4294967296)
  have h3 := Int.emod_def ((d : Int) - o) 4294967296
  omega

/-- C8 (amended): after loading, contiguity is guaranteed only where the
code constructs it - in the raw-MOD synthesis the data segment starts
exactly at `rodata.mem_offset + rodata.mem_size` (mod 2^32), the text
segment starts at 0, and rodata starts at `align_up(text_size, 0x1000)`,
which exceeds the text end whenever the text size is not page-aligned;
NSO and NRO segment offsets are copied from the container unchecked. -/
theorem c8_mod_contiguity (lz4 : Lz4Oracle) (file : Bytes) (fsz : Nat)
    (h : (loadFile lz4 file fsz).isSome = true)
    (hmod : ((loadFile lz4 file fsz).getD default).fileType = kMod) :
    ((loadFile lz4 file fsz).getD default).header.seg0.memOffset = 0 ∧
    ((loadFile lz4 file fsz).getD default).header.seg1.memOffset =
      alignUp ((loadFile lz4 file fsz).getD default).header.seg0.memSize 0x1000 %
        4294967296 ∧
    (((loadFile lz4 file fsz).getD default).header.seg1.memOffset +
        ((loadFile lz4 file fsz).getD default).header.seg1.memSize) % 4294967296 =
      ((loadFile lz4 file fsz).getD default).header.seg2.memOffset := by
  cases hopt : loadFile lz4 file fsz with
  | none => rw [hopt] at h; cases h
  | some st =>
    rw [hopt] at hmod
    simp only [Option.getD_some] at hmod ⊢
    have hrest : loadRest kMod default file fsz = some st := by
      unfold loadFile at hopt
      by_cases c1 : 0x100 ≤ fsz ∧ isNsoMagic file = true
      · rw [if_pos c1] at hopt
        simp only [] at hopt
        cases hps : procSegs lz4 file (parseNsoHeader file) zeroBytes [0, 1, 2] with
        | some img =>
          rw [hps] at hopt
          have := loadRest_fileType _ _ _ _ _ hopt
          rw [hmod] at this
          simp [kMod, kNso] at this
        | none =>
          rw [hps] at hopt
          exact Option.noConfusion hopt
      · rw [if_neg c1] at hopt
        by_cases c2 : 0x80 ≤ fsz ∧ isNroMagic file = true
        · rw [if_pos c2] at hopt
          by_cases c3 : readU32 file 0x18 ≠ fsz
          · rw [if_pos c3] at hopt
            exact Option.noConfusion hopt
          · rw [if_neg c3] at hopt
            simp only [] at hopt
            have := loadRest_fileType _ _ _ _ _ hopt
            rw [hmod] at this
            simp [kMod, kNro] at this
        · rw [if_neg c2] at hopt
          by_cases c4 : 8 ≤ fsz
          · rw [if_pos c4] at hopt
            exact hopt
          · rw [if_neg c4] at hopt
            exact Option.noConfusion hopt
    obtain ⟨hdr1, p, hms, e0, e1, e2⟩ := loadRest_mod_segs _ _ _ _ hrest
    obtain ⟨ts, dOff, hlt, g0, g1, g2, g3, g4⟩ := modSynth_segs _ _ _ _ _ _ _ hms
    rw [e0, e1, e2, g0, g1, g2, g3, g4]
    refine ⟨rfl, rfl, ?_⟩
    exact contig_mod _ _ hlt

/-- Apply a list of (width, offset, value) little-endian writes to the
zero buffer (width 1, 4 or 8). -/
def bytesOf (l : List (Nat × Nat × Nat)) : Bytes :=
  l.foldl
    (fun b e =>
      if e.1 = 1 then writeU8 b e.2.1 e.2.2
      else if e.1 = 4 then writeU32 b e.2.1 e.2.2
      else writeU64 b e.2.1 e.2.2)
    zeroBytes

/-- A raw MOD that loads successfully: MOD header at 0x10, dynamic table
at 0x40 (PLTRELSZ 24, SYMTAB 0xa0, STRTAB 0x160), the PLT resolver
pattern at 0x80, and eight dynsym entries carrying the four distinct
section indices 1-4, with a `STT_SECTION` symbol for the data section at
`st_value = 0x1010`. -/
def fileC8w : Bytes :=
  bytesOf
    [(4, 4, 0x10),
     (1, 0x10, 77), (1, 0x11, 79), (1, 0x12, 68), (1, 0x13, 48),
     (4, 0x14, 0x30),
     (8, 0x40, 2), (8, 0x48, 24), (8, 0x50, 6), (8, 0x58, 0xa0),
     (8, 0x60, 5), (8, 0x68, 0x160),
     (4, 0x80, 0xa9bf7bf0), (4, 0x84, 0xd00004d0), (4, 0x88, 0xf9428a11),
     (4, 0x8c, 0x91144210), (4, 0x90, 0xd61f0220), (4, 0x94, 0xd503201f),
     (4, 0x98, 0xd503201f), (4, 0x9c, 0xd503201f),
     (1, 0xa6, 1), (1, 0xbe, 2), (1, 0xd4, 3), (1, 0xd6, 3),
     (8, 0xd8, 0x1010), (1, 0xee, 4)]

theorem c8_witness :
    ((loadFile lz4fail fileC8w 0x1020).getD default).header.seg0.memOffset = 0 ∧
    ((loadFile lz4fail fileC8w 0x1020).getD default).header.seg1.memOffset =
      alignUp ((loadFile lz4fail fileC8w 0x1020).getD default).header.seg0.memSize
        0x1000 % 4294967296 ∧
    (((loadFile lz4fail fileC8w 0x1020).getD default).header.seg1.memOffset +
        ((loadFile lz4fail fileC8w 0x1020).getD default).header.seg1.memSize) %
      4294967296 =
      ((loadFile lz4fail fileC8w 0x1020).getD default).header.seg2.memOffset :=
  c8_mod_contiguity lz4fail fileC8w 0x1020 (by decide) (by decide)

/-! ### Claim C3: free-slot accounting for the insertion machinery -/

/-- Number of free (`SHT_NULL`) slots at indices `≥ 1` of the array. -/
def freeCount : List Shdr → Nat
  | [] => 0
  | _ :: t => t.countP (fun s => s.shType == 0)

theorem countP_pos_idx (p : Shdr → Bool) (l : List Shdr) (h : 0 < l.countP p) :
    ∃ j, j < l.length ∧ p (l.getD j default) = true := by
  induction l with
  | nil => simp [List.countP_nil] at h
  | cons a t ih =>
    by_cases hp : p a
    · exact ⟨0, by simp, by simpa [List.getD_cons_zero] using hp⟩
    · rw [List.countP_cons, if_neg hp] at h
      obtain ⟨j, hj, hpj⟩ := ih (by omega)
      exact ⟨j + 1, by simp [List.length_cons]; omega, by simpa [List.getD_cons_succ] using hpj⟩

theorem countP_set_ge (p : Shdr → Bool) (l : List Shdr) (j : Nat) (x : Shdr) :
    l.countP p ≤ (l.set j x).countP p + 1 := by
  induction l generalizing j with
  | nil => simp
  | cons a t ih =>
    cases j with
    | zero =>
      simp only [List.set, List.countP_cons]
      split <;> split <;> omega
    | succ n =>
      simp only [List.set, List.countP_cons]
      have := ih n
      split <;> omega

theorem getD_set_ne (l : List Shdr) (i j : Nat) (x : Shdr) (h : i ≠ j) :
    (l.set j x).getD i default = l.getD i default := by
  induction l generalizing i j with
  | nil => cases j <;> rfl
  | cons a t ih =>
    cases j with
    | zero =>
      cases i with
      | zero => exact absurd rfl h
      | succ m => simp only [List.set, List.getD_cons_succ]
    | succ n =>
      cases i with
      | zero => simp only [List.set, List.getD_cons_zero]
      | succ m =>
        simp only [List.set, List.getD_cons_succ]
        exact ih m n (by omega)

theorem getD_set_self (l : List Shdr) (i : Nat) (x : Shdr) (h : i < l.length) :
    (l.set i x).getD i default = x := by
  induction l generalizing i with
  | nil => simp at h
  | cons a t ih =>
    cases i with
    | zero => simp only [List.set, List.getD_cons_zero]
    | succ m =>
      simp only [List.set, List.getD_cons_succ]
      exact ih m (by rw [List.length_cons] at h; omega)

theorem getD_mem (arr : List Shdr) (i : Nat) (h : i < arr.length) :
    arr.getD i default ∈ arr := by
  induction arr generalizing i with
  | nil => simp at h
  | cons a t ih =>
    cases i with
    | zero => rw [List.getD_cons_zero]; exact List.mem_cons_self a t
    | succ m =>
      rw [List.getD_cons_succ]
      exact List.mem_cons_of_mem a (ih m (by rw [List.length_cons] at h; omega))

theorem freeCount_pos (arr : List Shdr) (h : 1 ≤ freeCount arr) :
    ∃ j, 1 ≤ j ∧ j < arr.length ∧ (arr.getD j default).shType = 0 := by
  cases arr with
  | nil => simp [freeCount] at h
  | cons a t =>
    obtain ⟨j, hj, hpj⟩ := countP_pos_idx (fun s => s.shType == 0) t
      (show 0 < t.countP (fun s => s.shType == 0) from h)
    refine ⟨j + 1, by omega, by simp [List.length_cons]; omega, ?_⟩
    rw [List.getD_cons_succ]
    simpa using hpj

theorem freeCount_set (arr : List Shdr) (i : Nat) (x : Shdr) :
    freeCount arr ≤ freeCount (arr.set i x) + 1 := by
  cases arr with
  | nil => cases i <;> simp [freeCount]
  | cons a t =>
    cases i with
    | zero => simp only [List.set, freeCount]; omega
    | succ n => simp only [List.set, freeCount]; exact countP_set_ge _ t n x

theorem scanFirst_lt (p : Nat → Bool) (start fuel o : Nat)
    (h : scanFirst p start fuel = some o) : o < start + fuel := by
  induction fuel generalizing start with
  | zero => simp [scanFirst] at h
  | succ n ih =>
    unfold scanFirst at h
    by_cases hp : p start
    · rw [if_pos hp] at h; cases h; omega
    · rw [if_neg hp] at h; have := ih (start + 1) h; omega

theorem findFreeFrom_spec (arr : List Shdr) (start i : Nat)
    (h : findFreeFrom arr start = some i) :
    start ≤ i ∧ i < arr.length ∧ (arr.getD i default).shType = 0 := by
  unfold findFreeFrom at h
  obtain ⟨h1, h2, _⟩ := scanFirst_spec _ _ _ _ h
  have h3 := scanFirst_lt _ _ _ _ h
  refine ⟨h1, by omega, ?_⟩
  simpa [SHT_NULL] using h2

theorem findFreeFrom_isSome (arr : List Shdr) (h : 1 ≤ freeCount arr) :
    (findFreeFrom arr 1).isSome = true := by
  obtain ⟨j, hj1, hj2, hj3⟩ := freeCount_pos arr h
  unfold findFreeFrom
  refine scanFirst_isSome _ 1 (arr.length - 1) j hj1 (by omega) ?_
  show ((arr.getD j default).shType == SHT_NULL) = true
  rw [hj3]
  rfl

theorem orderedStart_pos (known : List (Nat × Shdr)) (s : Shdr) :
    1 ≤ orderedStart known s := by
  unfold orderedStart
  have key : ∀ (ks : List (Nat × Shdr)) (a : Nat), 1 ≤ a →
      1 ≤ ks.foldl
        (fun st e =>
          if e.2.shAddr ≤ s.shAddr ∧ s.shAddr < e.2.shAddr + e.2.shSize then e.1 + 1 else st)
        a := by
    intro ks
    induction ks with
    | nil => intro a ha; simpa using ha
    | cons e t ih =>
      intro a ha
      simp only [List.foldl_cons]
      apply ih
      split
      · omega
      · exact ha
  exact key known 1 (by omega)

theorem insertShdr_cases (known : List (Nat × Shdr)) (arr : List Shdr) (s : Shdr)
    (ord : Bool) :
    (insertShdr known arr s ord = (arr, SHN_UNDEF) ∧ findFreeFrom arr 1 = none) ∨
    ∃ i, 1 ≤ i ∧ i < arr.length ∧ (arr.getD i default).shType = 0 ∧
      insertShdr known arr s ord = (arr.set i s, i) := by
  unfold insertShdr
  simp only []
  set start := if ord then orderedStart known s else 1 with hg
  have hst1 : 1 ≤ start := by
    rw [hg]
    split
    · exact orderedStart_pos known s
    · exact Nat.le_refl 1
  cases hf : findFreeFrom arr start with
  | some i =>
    obtain ⟨hle, hlen, hfree⟩ := findFreeFrom_spec arr start i hf
    right
    exact ⟨i, le_trans hst1 hle, hlen, hfree, rfl⟩
  | none =>
    by_cases hc : ord = true ∧ start ≠ 1
    · rw [if_pos hc]
      cases hf2 : findFreeFrom arr 1 with
      | some i =>
        obtain ⟨hle, hlen, hfree⟩ := findFreeFrom_spec arr 1 i hf2
        right
        exact ⟨i, hle, hlen, hfree, rfl⟩
      | none =>
        left
        exact ⟨rfl, rfl⟩
    · rw [if_neg hc]
      left
      refine ⟨rfl, ?_⟩
      have hs1 : start = 1 := by
        rcases not_and_or.mp hc with h1 | h1
        · have hof : ord = false := by
            cases ord
            · rfl
            · exact absurd rfl h1
          rw [hg, hof]
          simp
        · exact not_not.mp h1
      rw [← hs1]
      exact hf

theorem insertShdr_success (known : List (Nat × Shdr)) (arr : List Shdr) (s : Shdr)
    (ord : Bool) (h : 1 ≤ freeCount arr) :
    ∃ i, 1 ≤ i ∧ i < arr.length ∧ insertShdr known arr s ord = (arr.set i s, i) := by
  rcases insertShdr_cases known arr s ord with ⟨_, hn⟩ | ⟨i, h1, h2, _, h4⟩
  · have hi := findFreeFrom_isSome arr h
    rw [hn] at hi
    simp at hi
  · exact ⟨i, h1, h2, h4⟩

theorem insertShdr_length (known : List (Nat × Shdr)) (arr : List Shdr) (s : Shdr)
    (ord : Bool) : (insertShdr known arr s ord).1.length = arr.length := by
  rcases insertShdr_cases known arr s ord with ⟨h, _⟩ | ⟨i, _, _, _, h⟩
  · rw [h]
  · rw [h]
    simp [List.length_set]

theorem insertShdr_freeCount (known : List (Nat × Shdr)) (arr : List Shdr) (s : Shdr)
    (ord : Bool) : freeCount arr ≤ freeCount (insertShdr known arr s ord).1 + 1 := by
  rcases insertShdr_cases known arr s ord with ⟨h, _⟩ | ⟨i, _, _, _, h⟩ <;> rw [h]
  · exact Nat.le_succ _
  · exact freeCount_set arr i s

theorem insertShdr_preserve (known : List (Nat × Shdr)) (arr : List Shdr) (s : Shdr)
    (ord : Bool) (i : Nat) (h : (arr.getD i default).shType ≠ 0) :
    (insertShdr known arr s ord).1.getD i default = arr.getD i default := by
  rcases insertShdr_cases known arr s ord with ⟨he, _⟩ | ⟨j, _, _, hfree, he⟩
  · rw [he]
  · rw [he]
    exact getD_set_ne arr i j s (fun hij => h (by rw [hij]; exact hfree))

theorem insertCond_length (known : List (Nat × Shdr)) (c : Bool) (arr : List Shdr)
    (s : Shdr) (ord : Bool) : (insertCond known c arr s ord).1.length = arr.length := by
  unfold insertCond
  split
  · exact insertShdr_length known arr s ord
  · rfl

theorem insertCond_freeCount (known : List (Nat × Shdr)) (c : Bool) (arr : List Shdr)
    (s : Shdr) (ord : Bool) :
    freeCount arr ≤ freeCount (insertCond known c arr s ord).1 + (if c then 1 else 0) := by
  by_cases hc : c = true
  · unfold insertCond
    rw [if_pos hc, if_pos hc]
    exact insertShdr_freeCount known arr s ord
  · unfold insertCond
    rw [if_neg hc, if_neg hc]
    exact Nat.le_add_right _ 0

theorem insertCond_preserve (known : List (Nat × Shdr)) (c : Bool) (arr : List Shdr)
    (s : Shdr) (ord : Bool) (i : Nat) (h : (arr.getD i default).shType ≠ 0) :
    (insertCond known c arr s ord).1.getD i default = arr.getD i default := by
  unfold insertCond
  split
  · exact insertShdr_preserve known arr s ord i h
  · rfl

theorem insertCond_success (known : List (Nat × Shdr)) (arr : List Shdr) (s : Shdr)
    (ord : Bool) (h : 1 ≤ freeCount arr) :
    ∃ i, 1 ≤ i ∧ i < arr.length ∧ insertCond known true arr s ord = (arr.set i s, i) := by
  unfold insertCond
  rw [if_pos rfl]
  exact insertShdr_success known arr s ord h

/-- The array holds `s` at some valid index. -/
def containsShdr (arr : List Shdr) (s : Shdr) : Prop :=
  ∃ i, i < arr.length ∧ arr.getD i default = s

theorem containsShdr_insertShdr (known : List (Nat × Shdr)) (arr : List Shdr)
    (t s : Shdr) (ord : Bool) (hs : s.shType ≠ 0) (h : containsShdr arr s) :
    containsShdr (insertShdr known arr t ord).1 s := by
  obtain ⟨i, hi, he⟩ := h
  refine ⟨i, ?_, ?_⟩
  · rw [insertShdr_length]; exact hi
  · rw [insertShdr_preserve known arr t ord i (by rw [he]; exact hs)]
    exact he

theorem containsShdr_insertCond (known : List (Nat × Shdr)) (c : Bool) (arr : List Shdr)
    (t s : Shdr) (ord : Bool) (hs : s.shType ≠ 0) (h : containsShdr arr s) :
    containsShdr (insertCond known c arr t ord).1 s := by
  obtain ⟨i, hi, he⟩ := h
  refine ⟨i, ?_, ?_⟩
  · rw [insertCond_length]; exact hi
  · rw [insertCond_preserve known c arr t ord i (by rw [he]; exact hs)]
    exact he

/-- Number of steps whose condition is true (`shdrs_needed` charged to
the tail of the insertion sequence). -/
def trueCount : List InsertStep → Nat
  | [] => 0
  | (c, _, _) :: rest => (if c then 1 else 0) + trueCount rest

theorem runSteps_preserve (known : List (Nat × Shdr)) (steps : List InsertStep)
    (arr : List Shdr) (s : Shdr) (hs : s.shType ≠ 0) (h : containsShdr arr s) :
    containsShdr (runSteps known arr steps) s := by
  induction steps generalizing arr with
  | nil => exact h
  | cons hd rest ih =>
    obtain ⟨c, t, ob⟩ := hd
    simp only [runSteps]
    exact ih _ (containsShdr_insertCond known c arr t s ob hs h)

theorem runSteps_contains (known : List (Nat × Shdr)) (steps : List InsertStep)
    (arr : List Shdr) (s : Shdr) (ob : Bool) (hs : s.shType ≠ 0)
    (hmem : ((true : Bool), s, ob) ∈ steps) (hb : trueCount steps ≤ freeCount arr) :
    containsShdr (runSteps known arr steps) s := by
  induction steps generalizing arr with
  | nil => cases hmem
  | cons hd rest ih =>
    obtain ⟨c, t, ob2⟩ := hd
    simp only [runSteps]
    rcases List.mem_cons.mp hmem with he | hm
    · have hc : c = true := (congrArg (fun x => x.1) he).symm
      have ht : t = s := (congrArg (fun x => x.2.1) he).symm
      subst hc
      subst ht
      simp only [trueCount] at hb
      simp only [if_pos] at hb
      obtain ⟨i, hi1, hi2, he2⟩ := insertCond_success known arr t ob2 (by omega)
      rw [he2]
      apply runSteps_preserve known rest _ t hs
      refine ⟨i, ?_, ?_⟩
      · show i < (arr.set i t).length
        rw [List.length_set]
        exact hi2
      · show (arr.set i t).getD i default = t
        exact getD_set_self arr i t hi2
    · have h1 := insertCond_freeCount known c arr t ob2
      simp only [trueCount] at hb
      exact ih _ hm (by omega)

theorem countP_replicate_true (p : Shdr → Bool) (x : Shdr) (hp : p x = true) (n : Nat) :
    (List.replicate n x).countP p = n := by
  induction n with
  | zero => rfl
  | succ m ih => rw [List.replicate_succ, List.countP_cons, if_pos hp, ih]

theorem freeCount_replicate (n : Nat) :
    freeCount (List.replicate n (default : Shdr)) = n - 1 := by
  cases n with
  | zero => rfl
  | succ m =>
    rw [List.replicate_succ]
    show (List.replicate m (default : Shdr)).countP (fun s => s.shType == 0) = m + 1 - 1
    rw [countP_replicate_true _ _ rfl m]
    omega

theorem freeCount_foldSet (ks : List (Nat × Shdr)) (arr : List Shdr) :
    freeCount arr ≤ freeCount (ks.foldl (fun a e => a.set e.1 e.2) arr) + ks.length := by
  induction ks generalizing arr with
  | nil => simp
  | cons e t ih =>
    simp only [List.foldl_cons, List.length_cons]
    have h1 := freeCount_set arr e.1 e.2
    have h2 := ih (arr.set e.1 e.2)
    omega

theorem writeElfArr0_freeCount (st : NsoState) :
    writeElfNumShdrs st - 1 ≤ freeCount (writeElfArr0 st) + (writeElfKnownFixed st).length := by
  have h := freeCount_foldSet (writeElfKnownFixed st)
    (List.replicate (writeElfNumShdrs st) default)
  rw [freeCount_replicate] at h
  exact h

theorem writeElfKnownFixed_length (st : NsoState) :
    (writeElfKnownFixed st).length = (writeElfKnown st).known.length := by
  unfold writeElfKnownFixed
  generalize (writeElfKnown st).known = ks
  generalize writeElfLoads st = ls
  induction ls generalizing ks with
  | nil => rfl
  | cons ph rest ih =>
    simp only [List.foldl_cons]
    rw [ih, List.length_map]

theorem writeElfNumShdrs_ge (st : NsoState)
    (hbound : (writeElfKnown st).known.length + 6 + pCount (presentsOf st) < 65536) :
    (writeElfKnown st).known.length + 6 + pCount (presentsOf st) ≤ writeElfNumShdrs st := by
  unfold writeElfNumShdrs
  simp only []
  split <;> omega

/-- C3 (amended): whenever the final section count fits `u16`
(`known + 6 + optional < 65536`, so no slot is exhausted), the emitted
ELF always contains `.rela.dyn` with `sh_addr = dyn_info.rela` and
`sh_size = dyn_info.relasz`, and contains `.hash`, `.gnu.hash`,
`.init_array`, `.fini_array` and `.rela.plt` under each section's
actual emission condition, with `sh_addr` the dynamic-table address and
`sh_size` the corresponding size; the array sections additionally
require nonzero `*_arraysz`, and `.rela.plt` additionally requires
`DT_PLTGOT != 0` and a jump-slot relocation (`jumpSlotEnd ≠ 0`), not
merely `jmprel`/`pltrelsz` nonzero as the original claim stated. -/
theorem c3_sections_present (st : NsoState)
    (hbound : (writeElfKnown st).known.length + 6 + pCount (presentsOf st) < 65536) :
    (∃ s ∈ (writeElf st).shdrs, s.shType = SHT_RELA ∧ s.shAddr = st.dynInfo.rela ∧
       s.shSize = st.dynInfo.relasz) ∧
    (st.dynInfo.hash ≠ 0 →
      ∃ s ∈ (writeElf st).shdrs, s.shType = SHT_HASH ∧ s.shAddr = st.dynInfo.hash ∧
        s.shSize = hashLenOf st) ∧
    (st.dynInfo.gnu_hash ≠ 0 →
      ∃ s ∈ (writeElf st).shdrs, s.shType = SHT_GNU_HASH ∧
        s.shAddr = st.dynInfo.gnu_hash ∧ s.shSize = gnuHashLenOf st) ∧
    (st.dynInfo.init_array ≠ 0 → st.dynInfo.init_arraysz ≠ 0 →
      ∃ s ∈ (writeElf st).shdrs, s.shType = SHT_INIT_ARRAY ∧
        s.shAddr = st.dynInfo.init_array ∧ s.shSize = st.dynInfo.init_arraysz) ∧
    (st.dynInfo.fini_array ≠ 0 → st.dynInfo.fini_arraysz ≠ 0 →
      ∃ s ∈ (writeElf st).shdrs, s.shType = SHT_FINI_ARRAY ∧
        s.shAddr = st.dynInfo.fini_array ∧ s.shSize = st.dynInfo.fini_arraysz) ∧
    (jumpSlotEnd st ≠ 0 → st.dynInfo.pltgot ≠ 0 → st.dynInfo.jmprel ≠ 0 →
      st.dynInfo.pltrelsz ≠ 0 →
      ∃ s ∈ (writeElf st).shdrs, s.shType = SHT_RELA ∧ s.shAddr = st.dynInfo.jmprel ∧
        s.shSize = st.dynInfo.pltrelsz) := by
  have hkfl := writeElfKnownFixed_length st
  have hnum := writeElfNumShdrs_ge st hbound
  have harr0 := writeElfArr0_freeCount st
  have hPeq : pCount (presentsOf st) =
      (if (presentsOf st).plt then 1 else 0) + (if (presentsOf st).got then 1 else 0) +
      (if (presentsOf st).gotPlt then 1 else 0) +
      (if (presentsOf st).relaPlt then 1 else 0) +
      (if (presentsOf st).hash then 1 else 0) + (if (presentsOf st).gnuHash then 1 else 0) +
      (if (presentsOf st).initF then 1 else 0) + (if (presentsOf st).finiF then 1 else 0) +
      (if (presentsOf st).initArray then 1 else 0) +
      (if (presentsOf st).finiArray then 1 else 0) +
      (if (presentsOf st).note then 1 else 0) + (if (presentsOf st).eh then 2 else 0) := rfl
  have hE2 : (if (presentsOf st).eh then 2 else 0) =
      (if (presentsOf st).eh then 1 else 0) + (if (presentsOf st).eh then 1 else 0) := by
    by_cases heh : (presentsOf st).eh = true <;> simp [heh]
  have e1 : weR1 st = insertCond (writeElfKnownFixed st) (presentsOf st).initF
      (writeElfArr0 st) (sInitOf st) true := rfl
  have e2 : weR2 st = insertCond (writeElfKnownFixed st) (presentsOf st).finiF
      (weR1 st).1 (sFiniOf st) true := rfl
  have e3 : weR3 st = insertShdr (writeElfKnownFixed st) (weR2 st).1 (sDynstrOf st)
      false := rfl
  have e4 : weR4 st = insertShdr (writeElfKnownFixed st) (weR3 st).1 (sDynsymOf st)
      false := rfl
  have e5 : weR5 st = insertShdr (writeElfKnownFixed st) (weR4 st).1 (sDynamicOf st)
      false := rfl
  have e6 : weR6 st = insertShdr (writeElfKnownFixed st) (weR5 st).1 (sRelaDynOf st)
      false := rfl
  have e7 : weR7 st = insertCond (writeElfKnownFixed st) (presentsOf st).plt
      (weR6 st).1 (sPltOf st) true := rfl
  have e17 : weR17 st = runSteps (writeElfKnownFixed st) (weR7 st).1 (weTailSteps st) := rfl
  have e18 : weR18 st = insertShdr (writeElfKnownFixed st) (weR17 st) (sShstrtabOf st)
      false := rfl
  have h1 := insertCond_freeCount (writeElfKnownFixed st) (presentsOf st).initF
      (writeElfArr0 st) (sInitOf st) true
  rw [← e1] at h1
  have h2 := insertCond_freeCount (writeElfKnownFixed st) (presentsOf st).finiF
      (weR1 st).1 (sFiniOf st) true
  rw [← e2] at h2
  have h3 := insertShdr_freeCount (writeElfKnownFixed st) (weR2 st).1 (sDynstrOf st) false
  rw [← e3] at h3
  have h4 := insertShdr_freeCount (writeElfKnownFixed st) (weR3 st).1 (sDynsymOf st) false
  rw [← e4] at h4
  have h5 := insertShdr_freeCount (writeElfKnownFixed st) (weR4 st).1 (sDynamicOf st) false
  rw [← e5] at h5
  have h6 := insertShdr_freeCount (writeElfKnownFixed st) (weR5 st).1 (sRelaDynOf st) false
  rw [← e6] at h6
  have h7 := insertCond_freeCount (writeElfKnownFixed st) (presentsOf st).plt
      (weR6 st).1 (sPltOf st) true
  rw [← e7] at h7
  have htc : trueCount (weTailSteps st) =
      (if (presentsOf st).got then 1 else 0) + ((if (presentsOf st).gotPlt then 1 else 0) +
      ((if (presentsOf st).relaPlt then 1 else 0) +
      ((if (presentsOf st).initArray then 1 else 0) +
      ((if (presentsOf st).finiArray then 1 else 0) +
      ((if (presentsOf st).hash then 1 else 0) + ((if (presentsOf st).gnuHash then 1 else 0) +
      ((if (presentsOf st).note then 1 else 0) + ((if (presentsOf st).eh then 1 else 0) +
      ((if (presentsOf st).eh then 1 else 0) + 0))))))))) := rfl
  have hbtail : trueCount (weTailSteps st) ≤ freeCount (weR7 st).1 := by omega
  have lift7 : ∀ s : Shdr, s.shType ≠ 0 → containsShdr (weR6 st).1 s →
      containsShdr (weR18 st).1 s := by
    intro s hsne hc
    rw [e18]
    apply containsShdr_insertShdr _ _ _ _ _ hsne
    rw [e17]
    apply runSteps_preserve _ _ _ _ hsne
    rw [e7]
    exact containsShdr_insertCond _ _ _ _ _ _ hsne hc
  have lift17 : ∀ s : Shdr, s.shType ≠ 0 → containsShdr (weR17 st) s →
      containsShdr (weR18 st).1 s := by
    intro s hsne hc
    rw [e18]
    exact containsShdr_insertShdr _ _ _ _ _ hsne hc
  have mkMem : ∀ s : Shdr, containsShdr (weR18 st).1 s → s ∈ (writeElf st).shdrs := by
    intro s hc
    obtain ⟨i, hi, he⟩ := hc
    rw [← he]
    show (weR18 st).1.getD i default ∈ (weR18 st).1
    exact getD_mem _ i hi
  have hfc5 : 1 ≤ freeCount (weR5 st).1 := by omega
  obtain ⟨i6, hi61, hi62, he6⟩ := insertShdr_success (writeElfKnownFixed st) (weR5 st).1
      (sRelaDynOf st) false hfc5
  have hty6 : (sRelaDynOf st).shType ≠ 0 := by
    show SHT_RELA ≠ 0
    decide
  have hc6 : containsShdr (weR6 st).1 (sRelaDynOf st) := by
    rw [e6, he6]
    refine ⟨i6, ?_, ?_⟩
    · show i6 < ((weR5 st).1.set i6 (sRelaDynOf st)).length
      rw [List.length_set]
      exact hi62
    · show ((weR5 st).1.set i6 (sRelaDynOf st)).getD i6 default = sRelaDynOf st
      exact getD_set_self (weR5 st).1 i6 (sRelaDynOf st) hi62
  refine ⟨?_, ?_, ?_, ?_, ?_, ?_⟩
  · exact ⟨sRelaDynOf st, mkMem _ (lift7 _ hty6 hc6), rfl, rfl, rfl⟩
  · intro hh
    have hflag : (presentsOf st).hash = true := by
      have hr : (presentsOf st).hash = (st.dynInfo.hash != 0) := rfl
      rw [hr, bne_iff_ne]
      exact hh
    have hmemh : ((true : Bool), sHashOf st, false) ∈ weTailSteps st := by
      unfold weTailSteps
      rw [hflag]
      exact List.mem_cons_of_mem _ (List.mem_cons_of_mem _ (List.mem_cons_of_mem _
        (List.mem_cons_of_mem _ (List.mem_cons_of_mem _ (List.mem_cons_self _ _)))))
    have hty : (sHashOf st).shType ≠ 0 := by
      show SHT_HASH ≠ 0
      decide
    have hc17 : containsShdr (weR17 st) (sHashOf st) := by
      rw [e17]
      exact runSteps_contains _ _ _ _ false hty hmemh hbtail
    exact ⟨sHashOf st, mkMem _ (lift17 _ hty hc17), rfl, rfl, rfl⟩
  · intro hh
    have hflag : (presentsOf st).gnuHash = true := by
      have hr : (presentsOf st).gnuHash = (st.dynInfo.gnu_hash != 0) := rfl
      rw [hr, bne_iff_ne]
      exact hh
    have hmemh : ((true : Bool), sGnuHashOf st, false) ∈ weTailSteps st := by
      unfold weTailSteps
      rw [hflag]
      exact List.mem_cons_of_mem _ (List.mem_cons_of_mem _ (List.mem_cons_of_mem _
        (List.mem_cons_of_mem _ (List.mem_cons_of_mem _ (List.mem_cons_of_mem _
          (List.mem_cons_self _ _))))))
    have hty : (sGnuHashOf st).shType ≠ 0 := by
      show SHT_GNU_HASH ≠ 0
      decide
    have hc17 : containsShdr (weR17 st) (sGnuHashOf st) := by
      rw [e17]
      exact runSteps_contains _ _ _ _ false hty hmemh hbtail
    exact ⟨sGnuHashOf st, mkMem _ (lift17 _ hty hc17), rfl, rfl, rfl⟩
  · intro hia hisz
    have hflag : (presentsOf st).initArray = true := by
      have hr : (presentsOf st).initArray =
          (st.dynInfo.init_array != 0 && st.dynInfo.init_arraysz != 0) := rfl
      rw [hr, Bool.and_eq_true, bne_iff_ne, bne_iff_ne]
      exact ⟨hia, hisz⟩
    have hmemh : ((true : Bool), sInitArrayOf st, true) ∈ weTailSteps st := by
      unfold weTailSteps
      rw [hflag]
      exact List.mem_cons_of_mem _ (List.mem_cons_of_mem _ (List.mem_cons_of_mem _
        (List.mem_cons_self _ _)))
    have hty : (sInitArrayOf st).shType ≠ 0 := by
      show SHT_INIT_ARRAY ≠ 0
      decide
    have hc17 : containsShdr (weR17 st) (sInitArrayOf st) := by
      rw [e17]
      exact runSteps_contains _ _ _ _ true hty hmemh hbtail
    exact ⟨sInitArrayOf st, mkMem _ (lift17 _ hty hc17), rfl, rfl, rfl⟩
  · intro hfa hfsz
    have hflag : (presentsOf st).finiArray = true := by
      have hr : (presentsOf st).finiArray =
          (st.dynInfo.fini_array != 0 && st.dynInfo.fini_arraysz != 0) := rfl
      rw [hr, Bool.and_eq_true, bne_iff_ne, bne_iff_ne]
      exact ⟨hfa, hfsz⟩
    have hmemh : ((true : Bool), sFiniArrayOf st, true) ∈ weTailSteps st := by
      unfold weTailSteps
      rw [hflag]
      exact List.mem_cons_of_mem _ (List.mem_cons_of_mem _ (List.mem_cons_of_mem _
        (List.mem_cons_of_mem _ (List.mem_cons_self _ _))))
    have hty : (sFiniArrayOf st).shType ≠ 0 := by
      show SHT_FINI_ARRAY ≠ 0
      decide
    have hc17 : containsShdr (weR17 st) (sFiniArrayOf st) := by
      rw [e17]
      exact runSteps_contains _ _ _ _ true hty hmemh hbtail
    exact ⟨sFiniArrayOf st, mkMem _ (lift17 _ hty hc17), rfl, rfl, rfl⟩
  · intro hjs hpg hjm hps
    have hflag : (presentsOf st).relaPlt = true := by
      have hr : (presentsOf st).relaPlt =
          ((jumpSlotEnd st != 0 && st.dynInfo.pltgot != 0) && st.dynInfo.jmprel != 0 &&
            st.dynInfo.pltrelsz != 0) := rfl
      have b1 : (jumpSlotEnd st != 0) = true := by rw [bne_iff_ne]; exact hjs
      have b2 : (st.dynInfo.pltgot != 0) = true := by rw [bne_iff_ne]; exact hpg
      have b3 : (st.dynInfo.jmprel != 0) = true := by rw [bne_iff_ne]; exact hjm
      have b4 : (st.dynInfo.pltrelsz != 0) = true := by rw [bne_iff_ne]; exact hps
      rw [hr, b1, b2, b3, b4]
      rfl
    have hmemh : ((true : Bool), sRelaPltOf st, false) ∈ weTailSteps st := by
      unfold weTailSteps
      rw [hflag]
      exact List.mem_cons_of_mem _ (List.mem_cons_of_mem _ (List.mem_cons_self _ _))
    have hty : (sRelaPltOf st).shType ≠ 0 := by
      show SHT_RELA ≠ 0
      decide
    have hc17 : containsShdr (weR17 st) (sRelaPltOf st) := by
      rw [e17]
      exact runSteps_contains _ _ _ _ false hty hmemh hbtail
    exact ⟨sRelaPltOf st, mkMem _ (lift17 _ hty hc17), rfl, rfl, rfl⟩

/-- Witness for the amended C3 at the concrete loaded state `stc3`. -/
theorem c3_witness :
    (writeElfKnown stc3).known.length + 6 + pCount (presentsOf stc3) < 65536 ∧
    ∃ s ∈ (writeElf stc3).shdrs, s.shType = SHT_RELA ∧ s.shAddr = stc3.dynInfo.rela ∧
      s.shSize = stc3.dynInfo.relasz :=
  ⟨by decide, (c3_sections_present stc3 (by decide)).1⟩

/-! ### Claim C9: header serialization round-trip -/

attribute [ext] SegmentHeader DataExtent NsoHeaderR

/-- The value of each header field after a serialize/parse round trip:
every numeric field truncated to its storage width. -/
def normalizeSeg (s : SegmentHeader) : SegmentHeader :=
  { fileOffset := s.fileOffset % 4294967296
    memOffset := s.memOffset % 4294967296
    memSize := s.memSize % 4294967296
    bssAlign := s.bssAlign % 4294967296 }

def normalizeHdr (h : NsoHeaderR) : NsoHeaderR :=
  { m0 := h.m0 % 256, m1 := h.m1 % 256, m2 := h.m2 % 256, m3 := h.m3 % 256
    field4 := h.field4 % 4294967296
    field8 := h.field8 % 4294967296
    flags := h.flags % 4294967296
    seg0 := normalizeSeg h.seg0
    seg1 := normalizeSeg h.seg1
    seg2 := normalizeSeg h.seg2
    buildId := fun k => if k < 32 then h.buildId k % 256 else 0
    fsz0 := h.fsz0 % 4294967296, fsz1 := h.fsz1 % 4294967296, fsz2 := h.fsz2 % 4294967296
    field6c := fun k => if k < 36 then h.field6c k % 256 else 0
    dynstrExt := ⟨h.dynstrExt.off % 4294967296, h.dynstrExt.sz % 4294967296⟩
    dynsymExt := ⟨h.dynsymExt.off % 4294967296, h.dynsymExt.sz % 4294967296⟩
    digests := fun k => if k < 96 then h.digests k % 256 else 0 }

theorem leByte_mod32 (v k : Nat) (hk : k < 4) :
    leByte (v % 4294967296) k = leByte v k := by
  have h4 : k = 0 ∨ k = 1 ∨ k = 2 ∨ k = 3 := by omega
  rcases h4 with rfl | rfl | rfl | rfl <;> simp only [leByte] <;> norm_num <;> omega

theorem segByte_normalize (s : SegmentHeader) (k : Nat) (hk : k < 16) :
    segByte (normalizeSeg s) k = segByte s k := by
  unfold segByte normalizeSeg
  by_cases c1 : k < 4
  · rw [if_pos c1, if_pos c1]
    exact leByte_mod32 _ _ (by omega)
  · rw [if_neg c1, if_neg c1]
    by_cases c2 : k < 8
    · rw [if_pos c2, if_pos c2]
      exact leByte_mod32 _ _ (by omega)
    · rw [if_neg c2, if_neg c2]
      by_cases c3 : k < 12
      · rw [if_pos c3, if_pos c3]
        exact leByte_mod32 _ _ (by omega)
      · rw [if_neg c3, if_neg c3]
        exact leByte_mod32 _ _ (by omega)

theorem serialize_m0 (h : NsoHeaderR) : serializeNsoHeader h 0 = h.m0 % 256 := by
  unfold serializeNsoHeader
  norm_num

theorem serialize_m1 (h : NsoHeaderR) : serializeNsoHeader h 1 = h.m1 % 256 := by
  unfold serializeNsoHeader
  norm_num

theorem serialize_m2 (h : NsoHeaderR) : serializeNsoHeader h 2 = h.m2 % 256 := by
  unfold serializeNsoHeader
  norm_num

theorem serialize_m3 (h : NsoHeaderR) : serializeNsoHeader h 3 = h.m3 % 256 := by
  unfold serializeNsoHeader
  norm_num

theorem serialize_buildId_byte (h : NsoHeaderR) (k : Nat) (hk : k < 32) :
    serializeNsoHeader h (0x40 + k) = h.buildId k % 256 := by
  unfold serializeNsoHeader
  rw [if_neg (by omega : ¬ 0x40 + k < 1), if_neg (by omega : ¬ 0x40 + k < 2),
      if_neg (by omega : ¬ 0x40 + k < 3), if_neg (by omega : ¬ 0x40 + k < 4),
      if_neg (by omega : ¬ 0x40 + k < 8), if_neg (by omega : ¬ 0x40 + k < 12),
      if_neg (by omega : ¬ 0x40 + k < 16), if_neg (by omega : ¬ 0x40 + k < 0x20),
      if_neg (by omega : ¬ 0x40 + k < 0x30), if_neg (by omega : ¬ 0x40 + k < 0x40),
      if_pos (by omega : 0x40 + k < 0x60), show 0x40 + k - 0x40 = k from by omega]

theorem serialize_field6c_byte (h : NsoHeaderR) (k : Nat) (hk : k < 36) :
    serializeNsoHeader h (0x6c + k) = h.field6c k % 256 := by
  unfold serializeNsoHeader
  rw [if_neg (by omega : ¬ 0x6c + k < 1), if_neg (by omega : ¬ 0x6c + k < 2),
      if_neg (by omega : ¬ 0x6c + k < 3), if_neg (by omega : ¬ 0x6c + k < 4),
      if_neg (by omega : ¬ 0x6c + k < 8), if_neg (by omega : ¬ 0x6c + k < 12),
      if_neg (by omega : ¬ 0x6c + k < 16), if_neg (by omega : ¬ 0x6c + k < 0x20),
      if_neg (by omega : ¬ 0x6c + k < 0x30), if_neg (by omega : ¬ 0x6c + k < 0x40),
      if_neg (by omega : ¬ 0x6c + k < 0x60), if_neg (by omega : ¬ 0x6c + k < 0x64),
      if_neg (by omega : ¬ 0x6c + k < 0x68), if_neg (by omega : ¬ 0x6c + k < 0x6c),
      if_pos (by omega : 0x6c + k < 0x90), show 0x6c + k - 0x6c = k from by omega]

theorem serialize_digests_byte (h : NsoHeaderR) (k : Nat) (hk : k < 96) :
    serializeNsoHeader h (0xa0 + k) = h.digests k % 256 := by
  unfold serializeNsoHeader
  rw [if_neg (by omega : ¬ 0xa0 + k < 1), if_neg (by omega : ¬ 0xa0 + k < 2),
      if_neg (by omega : ¬ 0xa0 + k < 3), if_neg (by omega : ¬ 0xa0 + k < 4),
      if_neg (by omega : ¬ 0xa0 + k < 8), if_neg (by omega : ¬ 0xa0 + k < 12),
      if_neg (by omega : ¬ 0xa0 + k < 16), if_neg (by omega : ¬ 0xa0 + k < 0x20),
      if_neg (by omega : ¬ 0xa0 + k < 0x30), if_neg (by omega : ¬ 0xa0 + k < 0x40),
      if_neg (by omega : ¬ 0xa0 + k < 0x60), if_neg (by omega : ¬ 0xa0 + k < 0x64),
      if_neg (by omega : ¬ 0xa0 + k < 0x68), if_neg (by omega : ¬ 0xa0 + k < 0x6c),
      if_neg (by omega : ¬ 0xa0 + k < 0x90), if_neg (by omega : ¬ 0xa0 + k < 0x94),
      if_neg (by omega : ¬ 0xa0 + k < 0x98), if_neg (by omega : ¬ 0xa0 + k < 0x9c),
      if_neg (by omega : ¬ 0xa0 + k < 0xa0), if_pos (by omega : 0xa0 + k < 0x100),
      show 0xa0 + k - 0xa0 = k from by omega]

theorem readU32_serialize (h : NsoHeaderR) (c x : Nat)
    (h0 : serializeNsoHeader h c = leByte x 0)
    (h1 : serializeNsoHeader h (c + 1) = leByte x 1)
    (h2 : serializeNsoHeader h (c + 2) = leByte x 2)
    (h3 : serializeNsoHeader h (c + 3) = leByte x 3) :
    readU32 (serializeNsoHeader h) c = x % 4294967296 := by
  unfold readU32 readU8
  rw [h0, h1, h2, h3]
  have h4 := leByte_recomb x
  omega

/-- A serialize/parse round trip truncates every field to its storage
width and zeroes the byte arrays past their lengths. -/
theorem parse_serialize (h : NsoHeaderR) :
    parseNsoHeader (serializeNsoHeader h) = normalizeHdr h := by
  apply NsoHeaderR.ext
  · show readU8 (serializeNsoHeader h) 0 = h.m0 % 256
    unfold readU8
    rw [serialize_m0]
    omega
  · show readU8 (serializeNsoHeader h) 1 = h.m1 % 256
    unfold readU8
    rw [serialize_m1]
    omega
  · show readU8 (serializeNsoHeader h) 2 = h.m2 % 256
    unfold readU8
    rw [serialize_m2]
    omega
  · show readU8 (serializeNsoHeader h) 3 = h.m3 % 256
    unfold readU8
    rw [serialize_m3]
    omega
  · show readU32 (serializeNsoHeader h) 4 = h.field4 % 4294967296
    apply readU32_serialize <;> (unfold serializeNsoHeader segByte; norm_num)
  · show readU32 (serializeNsoHeader h) 8 = h.field8 % 4294967296
    apply readU32_serialize <;> (unfold serializeNsoHeader segByte; norm_num)
  · show readU32 (serializeNsoHeader h) 0xc = h.flags % 4294967296
    apply readU32_serialize <;> (unfold serializeNsoHeader segByte; norm_num)
  · show parseSeg (serializeNsoHeader h) 0x10 = normalizeSeg h.seg0
    unfold parseSeg normalizeSeg
    apply SegmentHeader.ext <;>
      (apply readU32_serialize <;> (unfold serializeNsoHeader segByte; norm_num))
  · show parseSeg (serializeNsoHeader h) 0x20 = normalizeSeg h.seg1
    unfold parseSeg normalizeSeg
    apply SegmentHeader.ext <;>
      (apply readU32_serialize <;> (unfold serializeNsoHeader segByte; norm_num))
  · show parseSeg (serializeNsoHeader h) 0x30 = normalizeSeg h.seg2
    unfold parseSeg normalizeSeg
    apply SegmentHeader.ext <;>
      (apply readU32_serialize <;> (unfold serializeNsoHeader segByte; norm_num))
  · show (fun k => if k < 32 then readU8 (serializeNsoHeader h) (0x40 + k) else 0) =
        (fun k => if k < 32 then h.buildId k % 256 else 0)
    funext k
    by_cases hk : k < 32
    · rw [if_pos hk, if_pos hk]
      unfold readU8
      rw [serialize_buildId_byte h k hk]
      omega
    · rw [if_neg hk, if_neg hk]
  · show readU32 (serializeNsoHeader h) 0x60 = h.fsz0 % 4294967296
    apply readU32_serialize <;> (unfold serializeNsoHeader segByte; norm_num)
  · show readU32 (serializeNsoHeader h) 0x64 = h.fsz1 % 4294967296
    apply readU32_serialize <;> (unfold serializeNsoHeader segByte; norm_num)
  · show readU32 (serializeNsoHeader h) 0x68 = h.fsz2 % 4294967296
    apply readU32_serialize <;> (unfold serializeNsoHeader segByte; norm_num)
  · show (fun k => if k < 36 then readU8 (serializeNsoHeader h) (0x6c + k) else 0) =
        (fun k => if k < 36 then h.field6c k % 256 else 0)
    funext k
    by_cases hk : k < 36
    · rw [if_pos hk, if_pos hk]
      unfold readU8
      rw [serialize_field6c_byte h k hk]
      omega
    · rw [if_neg hk, if_neg hk]
  · show (⟨readU32 (serializeNsoHeader h) 0x90, readU32 (serializeNsoHeader h) 0x94⟩ :
        DataExtent) = ⟨h.dynstrExt.off % 4294967296, h.dynstrExt.sz % 4294967296⟩
    apply DataExtent.ext <;>
      (apply readU32_serialize <;> (unfold serializeNsoHeader segByte; norm_num))
  · show (⟨readU32 (serializeNsoHeader h) 0x98, readU32 (serializeNsoHeader h) 0x9c⟩ :
        DataExtent) = ⟨h.dynsymExt.off % 4294967296, h.dynsymExt.sz % 4294967296⟩
    apply DataExtent.ext <;>
      (apply readU32_serialize <;> (unfold serializeNsoHeader segByte; norm_num))
  · show (fun k => if k < 96 then readU8 (serializeNsoHeader h) (0xa0 + k) else 0) =
        (fun k => if k < 96 then h.digests k % 256 else 0)
    funext k
    by_cases hk : k < 96
    · rw [if_pos hk, if_pos hk]
      unfold readU8
      rw [serialize_digests_byte h k hk]
      omega
    · rw [if_neg hk, if_neg hk]

/-- Re-serializing a normalized header reproduces the same bytes. -/
theorem serialize_normalize (h : NsoHeaderR) (j : Nat) :
    serializeNsoHeader (normalizeHdr h) j = serializeNsoHeader h j := by
  unfold serializeNsoHeader normalizeHdr
  by_cases c1 : j < 1
  · rw [if_pos c1, if_pos c1]
    show h.m0 % 256 % 256 = h.m0 % 256
    omega
  · rw [if_neg c1, if_neg c1]
    by_cases c2 : j < 2
    · rw [if_pos c2, if_pos c2]
      show h.m1 % 256 % 256 = h.m1 % 256
      omega
    · rw [if_neg c2, if_neg c2]
      by_cases c3 : j < 3
      · rw [if_pos c3, if_pos c3]
        show h.m2 % 256 % 256 = h.m2 % 256
        omega
      · rw [if_neg c3, if_neg c3]
        by_cases c4 : j < 4
        · rw [if_pos c4, if_pos c4]
          show h.m3 % 256 % 256 = h.m3 % 256
          omega
        · rw [if_neg c4, if_neg c4]
          by_cases c5 : j < 8
          · rw [if_pos c5, if_pos c5]
            exact leByte_mod32 h.field4 (j - 4) (by omega)
          · rw [if_neg c5, if_neg c5]
            by_cases c6 : j < 12
            · rw [if_pos c6, if_pos c6]
              exact leByte_mod32 h.field8 (j - 8) (by omega)
            · rw [if_neg c6, if_neg c6]
              by_cases c7 : j < 16
              · rw [if_pos c7, if_pos c7]
                exact leByte_mod32 h.flags (j - 12) (by omega)
              · rw [if_neg c7, if_neg c7]
                by_cases c8 : j < 0x20
                · rw [if_pos c8, if_pos c8]
                  exact segByte_normalize h.seg0 (j - 0x10) (by omega)
                · rw [if_neg c8, if_neg c8]
                  by_cases c9 : j < 0x30
                  · rw [if_pos c9, if_pos c9]
                    exact segByte_normalize h.seg1 (j - 0x20) (by omega)
                  · rw [if_neg c9, if_neg c9]
                    by_cases c10 : j < 0x40
                    · rw [if_pos c10, if_pos c10]
                      exact segByte_normalize h.seg2 (j - 0x30) (by omega)
                    · rw [if_neg c10, if_neg c10]
                      by_cases c11 : j < 0x60
                      · rw [if_pos c11, if_pos c11]
                        show (if j - 0x40 < 32 then h.buildId (j - 0x40) % 256 else 0) % 256 =
                            h.buildId (j - 0x40) % 256
                        rw [if_pos (by omega)]
                        omega
                      · rw [if_neg c11, if_neg c11]
                        by_cases c12 : j < 0x64
                        · rw [if_pos c12, if_pos c12]
                          exact leByte_mod32 h.fsz0 (j - 0x60) (by omega)
                        · rw [if_neg c12, if_neg c12]
                          by_cases c13 : j < 0x68
                          · rw [if_pos c13, if_pos c13]
                            exact leByte_mod32 h.fsz1 (j - 0x64) (by omega)
                          · rw [if_neg c13, if_neg c13]
                            by_cases c14 : j < 0x6c
                            · rw [if_pos c14, if_pos c14]
                              exact leByte_mod32 h.fsz2 (j - 0x68) (by omega)
                            · rw [if_neg c14, if_neg c14]
                              by_cases c15 : j < 0x90
                              · rw [if_pos c15, if_pos c15]
                                show (if j - 0x6c < 36 then h.field6c (j - 0x6c) % 256 else 0) % 256 =
                                    h.field6c (j - 0x6c) % 256
                                rw [if_pos (by omega)]
                                omega
                              · rw [if_neg c15, if_neg c15]
                                by_cases c16 : j < 0x94
                                · rw [if_pos c16, if_pos c16]
                                  exact leByte_mod32 h.dynstrExt.off (j - 0x90) (by omega)
                                · rw [if_neg c16, if_neg c16]
                                  by_cases c17 : j < 0x98
                                  · rw [if_pos c17, if_pos c17]
                                    exact leByte_mod32 h.dynstrExt.sz (j - 0x94) (by omega)
                                  · rw [if_neg c17, if_neg c17]
                                    by_cases c18 : j < 0x9c
                                    · rw [if_pos c18, if_pos c18]
                                      exact leByte_mod32 h.dynsymExt.off (j - 0x98) (by omega)
                                    · rw [if_neg c18, if_neg c18]
                                      by_cases c19 : j < 0xa0
                                      · rw [if_pos c19, if_pos c19]
                                        exact leByte_mod32 h.dynsymExt.sz (j - 0x9c) (by omega)
                                      · rw [if_neg c19, if_neg c19]
                                        by_cases c20 : j < 0x100
                                        · rw [if_pos c20, if_pos c20]
                                          show (if j - 0xa0 < 96 then h.digests (j - 0xa0) % 256 else 0) % 256 =
                                              h.digests (j - 0xa0) % 256
                                          rw [if_pos (by omega)]
                                          omega
                                        · rw [if_neg c20, if_neg c20]

theorem and_f8_mod32 (f : Nat) :
    (f % 4294967296) &&& 0xf8 = (f &&& 0xf8) % 4294967296 := by
  have h32 : (4294967296 : Nat) = 2 ^ 32 := by norm_num
  rw [h32]
  apply Nat.eq_of_testBit_eq
  intro i
  simp only [Nat.testBit_and, Nat.testBit_mod_two_pow]
  by_cases hi : i < 32 <;> simp [hi]

/-- Clearing the header rewrite is idempotent. -/
theorem transformHdr_idem (h : NsoHeaderR) :
    transformHdr (transformHdr h) = transformHdr h := by
  unfold transformHdr
  apply NsoHeaderR.ext <;> try rfl
  show h.flags &&& 0xf8 &&& 0xf8 = h.flags &&& 0xf8
  rw [Nat.and_assoc, Nat.and_self]

/-- The header rewrite commutes with field truncation. -/
theorem transform_normalize (h : NsoHeaderR) :
    transformHdr (normalizeHdr h) = normalizeHdr (transformHdr h) := by
  unfold transformHdr normalizeHdr normalizeSeg
  apply NsoHeaderR.ext <;> try rfl
  · show (h.flags % 4294967296) &&& 0xf8 = (h.flags &&& 0xf8) % 4294967296
    exact and_f8_mod32 h.flags
  · apply SegmentHeader.ext <;> try rfl
    show (h.seg0.memOffset % 4294967296 + 0x100) % 4294967296 =
        (h.seg0.memOffset + 0x100) % 4294967296 % 4294967296
    omega
  · apply SegmentHeader.ext <;> try rfl
    show (h.seg1.memOffset % 4294967296 + 0x100) % 4294967296 =
        (h.seg1.memOffset + 0x100) % 4294967296 % 4294967296
    omega
  · apply SegmentHeader.ext <;> try rfl
    show (h.seg2.memOffset % 4294967296 + 0x100) % 4294967296 =
        (h.seg2.memOffset + 0x100) % 4294967296 % 4294967296
    omega

theorem flags_masked_bit (f i : Nat) (hi : i < 3) : (f &&& 0xf8) &&& (1 <<< i) = 0 := by
  have h3 : i = 0 ∨ i = 1 ∨ i = 2 := by omega
  rcases h3 with rfl | rfl | rfl
  · rw [Nat.and_assoc, (by decide : (0xf8 &&& (1 <<< 0) : Nat) = 0)]
    exact Nat.and_zero _
  · rw [Nat.and_assoc, (by decide : (0xf8 &&& (1 <<< 1) : Nat) = 0)]
    exact Nat.and_zero _
  · rw [Nat.and_assoc, (by decide : (0xf8 &&& (1 <<< 2) : Nat) = 0)]
    exact Nat.and_zero _

/-- `parseNsoHeader` reads only the first 0x100 bytes. -/
theorem parseNsoHeader_congr (f g : Bytes) (hfg : ∀ k, k < 0x100 → f k = g k) :
    parseNsoHeader f = parseNsoHeader g := by
  have h8 : ∀ k, k < 0x100 → readU8 f k = readU8 g k := by
    intro k hk
    unfold readU8
    rw [hfg k hk]
  have h32 : ∀ c, c + 4 ≤ 0x100 → readU32 f c = readU32 g c := by
    intro c hc
    unfold readU32
    rw [h8 c (by omega), h8 (c + 1) (by omega), h8 (c + 2) (by omega), h8 (c + 3) (by omega)]
  unfold parseNsoHeader parseSeg
  apply NsoHeaderR.ext
  · exact h8 0 (by omega)
  · exact h8 1 (by omega)
  · exact h8 2 (by omega)
  · exact h8 3 (by omega)
  · exact h32 4 (by omega)
  · exact h32 8 (by omega)
  · exact h32 0xc (by omega)
  · apply SegmentHeader.ext
    · exact h32 0x10 (by omega)
    · exact h32 (0x10 + 4) (by omega)
    · exact h32 (0x10 + 8) (by omega)
    · exact h32 (0x10 + 12) (by omega)
  · apply SegmentHeader.ext
    · exact h32 0x20 (by omega)
    · exact h32 (0x20 + 4) (by omega)
    · exact h32 (0x20 + 8) (by omega)
    · exact h32 (0x20 + 12) (by omega)
  · apply SegmentHeader.ext
    · exact h32 0x30 (by omega)
    · exact h32 (0x30 + 4) (by omega)
    · exact h32 (0x30 + 8) (by omega)
    · exact h32 (0x30 + 12) (by omega)
  · funext k
    show (if k < 32 then readU8 f (0x40 + k) else 0) = (if k < 32 then readU8 g (0x40 + k)
      else 0)
    by_cases hk : k < 32
    · rw [if_pos hk, if_pos hk, h8 (0x40 + k) (by omega)]
    · rw [if_neg hk, if_neg hk]
  · exact h32 0x60 (by omega)
  · exact h32 0x64 (by omega)
  · exact h32 0x68 (by omega)
  · funext k
    show (if k < 36 then readU8 f (0x6c + k) else 0) = (if k < 36 then readU8 g (0x6c + k)
      else 0)
    by_cases hk : k < 36
    · rw [if_pos hk, if_pos hk, h8 (0x6c + k) (by omega)]
    · rw [if_neg hk, if_neg hk]
  · apply DataExtent.ext
    · exact h32 0x90 (by omega)
    · exact h32 0x94 (by omega)
  · apply DataExtent.ext
    · exact h32 0x98 (by omega)
    · exact h32 0x9c (by omega)
  · funext k
    show (if k < 96 then readU8 f (0xa0 + k) else 0) = (if k < 96 then readU8 g (0xa0 + k)
      else 0)
    by_cases hk : k < 96
    · rw [if_pos hk, if_pos hk, h8 (0xa0 + k) (by omega)]
    · rw [if_neg hk, if_neg hk]

/-- Inversion of the non-MOD tail of `Load`: the state records the given
header, image and size, and both magic checks passed. -/
theorem loadRest_nso_inv (hdr0 : NsoHeaderR) (img : Bytes) (isz : Nat) (st : NsoState)
    (h : loadRest kNso hdr0 img isz = some st) :
    st.header = hdr0 ∧ st.image = img ∧ st.imageSize = isz ∧
    readU32 img 4 + 28 ≤ isz ∧ isModMagic img (readU32 img 4) = true := by
  unfold loadRest at h
  by_cases hb : readU32 img 4 + 28 > isz
  · rw [if_pos hb] at h
    cases h
  · rw [if_neg hb] at h
    by_cases hm : isModMagic img (readU32 img 4) = true
    · rw [if_neg (fun hc => hc hm)] at h
      simp only [] at h
      rw [if_pos (by decide : kNso ≠ kMod)] at h
      cases h
      exact ⟨rfl, rfl, rfl, by omega, hm⟩
    · rw [if_pos hm] at h
      cases h

/-- The non-MOD tail of `Load` succeeds whenever both magic checks pass. -/
theorem loadRest_nso_isSome (hdr0 : NsoHeaderR) (img : Bytes) (isz : Nat)
    (h1 : readU32 img 4 + 28 ≤ isz) (h2 : isModMagic img (readU32 img 4) = true) :
    (loadRest kNso hdr0 img isz).isSome = true := by
  unfold loadRest
  rw [if_neg (by omega : ¬ readU32 img 4 + 28 > isz), if_neg (fun hc => hc h2)]
  simp only []
  rw [if_pos (by decide : kNso ≠ kMod)]
  rfl

/-- Inversion of `Load` for a state whose recorded type is NSO. -/
theorem loadFile_nso_inv (lz4 : Lz4Oracle) (file : Bytes) (fsz : Nat) (st : NsoState)
    (h : loadFile lz4 file fsz = some st) (hft : st.fileType = kNso) :
    st.header = parseNsoHeader file ∧ isNsoMagic file = true ∧
    readU32 st.image 4 + 28 ≤ st.imageSize ∧
    isModMagic st.image (readU32 st.image 4) = true := by
  unfold loadFile at h
  by_cases hns : 0x100 ≤ fsz ∧ isNsoMagic file = true
  · rw [if_pos hns] at h
    simp only [] at h
    cases hp : procSegs lz4 file (parseNsoHeader file) zeroBytes [0, 1, 2] with
    | none =>
      rw [hp] at h
      cases h
    | some img =>
      rw [hp] at h
      obtain ⟨hh, hi, hsz, hc1, hc2⟩ := loadRest_nso_inv _ _ _ _ h
      refine ⟨hh, hns.2, ?_, ?_⟩
      · rw [hi, hsz]
        exact hc1
      · rw [hi]
        exact hc2
  · rw [if_neg hns] at h
    by_cases hnr : 0x80 ≤ fsz ∧ isNroMagic file = true
    · rw [if_pos hnr] at h
      by_cases hszc : readU32 file 0x18 ≠ fsz
      · rw [if_pos hszc] at h
        cases h
      · rw [if_neg hszc] at h
        simp only [] at h
        have hty := loadRest_fileType _ _ _ _ _ h
        rw [hft] at hty
        exact absurd hty (by decide)
    · rw [if_neg hnr] at h
      by_cases h8f : 8 ≤ fsz
      · rw [if_pos h8f] at h
        have hty := loadRest_fileType _ _ _ _ _ h
        rw [hft] at hty
        exact absurd hty (by decide)
      · rw [if_neg h8f] at h
        cases h

/-- The state loaded from a file (`default` when `Load` fails). -/
def c9St (lz4 : Lz4Oracle) (file : Bytes) (fsz : Nat) : NsoState :=
  (loadFile lz4 file fsz).getD default

/-- The uncompressed NSO written from the loaded state. -/
def c9Out1 (lz4 : Lz4Oracle) (file : Bytes) (fsz : Nat) : Bytes × Nat :=
  writeUncompressedNso ((loadFile lz4 file fsz).getD default)

theorem writeNso_size (st : NsoState)
    (hfit : st.header.seg2.memOffset + st.header.seg2.memSize < 4294967296) :
    (writeUncompressedNso st).2 =
      0x100 + (st.header.seg2.memOffset + st.header.seg2.memSize) := by
  show 0x100 + (st.header.seg2.memOffset + st.header.seg2.memSize) % 4294967296 = _
  rw [Nat.mod_eq_of_lt hfit]

theorem writeNso_byte (st : NsoState) (j : Nat)
    (hfit : st.header.seg2.memOffset + st.header.seg2.memSize < 4294967296) :
    (writeUncompressedNso st).1 j =
      if j < 0x100 then serializeNsoHeader (transformHdr st.header) j
      else if j < 0x100 + (st.header.seg2.memOffset + st.header.seg2.memSize) then
        st.image (j - 0x100) % 256
      else 0 := by
  show (if j < 0x100 then serializeNsoHeader (transformHdr st.header) j
      else if j < 0x100 + (st.header.seg2.memOffset + st.header.seg2.memSize) % 4294967296
      then st.image (j - 0x100) % 256 else 0) = _
  rw [Nat.mod_eq_of_lt hfit]

/-- C9 (amended): the uncompressed-NSO writer is idempotent on NSO
inputs whose loaded state has text at offset 0 covering the first 8
bytes, ordered non-overlapping segments fitting (with the 0x100 header)
in u32, the MOD header inside the written prefix, and no nonzero image
byte outside the three segments within the written prefix.  Without the
gap condition a byte deposited between segments by an over-long
`segment_file_sizes[i]` survives the first write but not the second, so
the original unconditional claim is false. -/
theorem c9_write_idempotent (lz4 : Lz4Oracle) (file : Bytes) (fsz : Nat)
    (hsome : (loadFile lz4 file fsz).isSome = true)
    (hft : (c9St lz4 file fsz).fileType = kNso)
    (hmo0 : (c9St lz4 file fsz).header.seg0.memOffset = 0)
    (h8sz : 8 ≤ (c9St lz4 file fsz).header.seg0.memSize)
    (hord1 : (c9St lz4 file fsz).header.seg0.memSize ≤
      (c9St lz4 file fsz).header.seg1.memOffset)
    (hord2 : (c9St lz4 file fsz).header.seg1.memOffset +
        (c9St lz4 file fsz).header.seg1.memSize ≤
      (c9St lz4 file fsz).header.seg2.memOffset)
    (hfit : (c9St lz4 file fsz).header.seg2.memOffset +
        (c9St lz4 file fsz).header.seg2.memSize + 0x100 < 4294967296)
    (hmagic : readU32 (c9St lz4 file fsz).image 4 + 28 ≤
      (c9St lz4 file fsz).header.seg2.memOffset + (c9St lz4 file fsz).header.seg2.memSize)
    (hgap : ∀ j, j < (c9St lz4 file fsz).header.seg2.memOffset +
        (c9St lz4 file fsz).header.seg2.memSize →
      ¬ j < (c9St lz4 file fsz).header.seg0.memSize →
      ¬ ((c9St lz4 file fsz).header.seg1.memOffset ≤ j ∧
         j < (c9St lz4 file fsz).header.seg1.memOffset +
           (c9St lz4 file fsz).header.seg1.memSize) →
      ¬ (c9St lz4 file fsz).header.seg2.memOffset ≤ j →
      (c9St lz4 file fsz).image j = 0) :
    (loadFile lz4 (c9Out1 lz4 file fsz).1 (c9Out1 lz4 file fsz).2).isSome = true ∧
    (writeUncompressedNso ((loadFile lz4 (c9Out1 lz4 file fsz).1
        (c9Out1 lz4 file fsz).2).getD default)).2 = (c9Out1 lz4 file fsz).2 ∧
    ∀ j, j < (c9Out1 lz4 file fsz).2 →
      (writeUncompressedNso ((loadFile lz4 (c9Out1 lz4 file fsz).1
        (c9Out1 lz4 file fsz).2).getD default)).1 j = (c9Out1 lz4 file fsz).1 j := by
  set st := c9St lz4 file fsz with hst
  have hld : loadFile lz4 file fsz = some st := by
    rw [hst]
    unfold c9St
    cases hx : loadFile lz4 file fsz with
    | some s => rfl
    | none =>
      rw [hx] at hsome
      simp at hsome
  have hgd : (loadFile lz4 file fsz).getD default = st := by
    rw [hst]
    rfl
  have hco : c9Out1 lz4 file fsz = writeUncompressedNso st := by
    unfold c9Out1
    rw [hgd]
  rw [hco]
  obtain ⟨hh, hmagfile, hchk1, hchk2⟩ := loadFile_nso_inv lz4 file fsz st hld hft
  have hfit2 : st.header.seg2.memOffset + st.header.seg2.memSize < 4294967296 := by omega
  set isz1 := st.header.seg2.memOffset + st.header.seg2.memSize with hisz1
  have hosz : (writeUncompressedNso st).2 = 0x100 + isz1 := writeNso_size st hfit2
  have hbyte := fun j => writeNso_byte st j hfit2
  set ob := (writeUncompressedNso st).1 with hob
  have hmb : ∀ u, u < 4 → readU8 ob u = readU8 file u := by
    intro u hu
    unfold readU8
    rw [hbyte u, if_pos (by omega)]
    have hu4 : u = 0 ∨ u = 1 ∨ u = 2 ∨ u = 3 := by omega
    rcases hu4 with rfl | rfl | rfl | rfl
    · rw [serialize_m0, hh]
      show file 0 % 256 % 256 % 256 = file 0 % 256
      omega
    · rw [serialize_m1, hh]
      show file 1 % 256 % 256 % 256 = file 1 % 256
      omega
    · rw [serialize_m2, hh]
      show file 2 % 256 % 256 % 256 = file 2 % 256
      omega
    · rw [serialize_m3, hh]
      show file 3 % 256 % 256 % 256 = file 3 % 256
      omega
  have hmag2 : isNsoMagic ob = true := by
    unfold isNsoMagic at hmagfile ⊢
    rw [hmb 0 (by omega), hmb 1 (by omega), hmb 2 (by omega), hmb 3 (by omega)]
    exact hmagfile
  have hparse : parseNsoHeader ob = normalizeHdr (transformHdr st.header) := by
    rw [parseNsoHeader_congr ob (serializeNsoHeader (transformHdr st.header))
      (fun k hk => by rw [hbyte k, if_pos hk]), parse_serialize]
  set h2 := normalizeHdr (transformHdr st.header) with hh2
  have e2o0 : h2.seg0.memOffset = 0 := by
    rw [hh2]
    show st.header.seg0.memOffset % 4294967296 = 0
    omega
  have e2s0 : h2.seg0.memSize = st.header.seg0.memSize := by
    rw [hh2]
    show st.header.seg0.memSize % 4294967296 = st.header.seg0.memSize
    omega
  have e2f0 : h2.seg0.fileOffset = st.header.seg0.memOffset + 0x100 := by
    rw [hh2]
    show (st.header.seg0.memOffset + 0x100) % 4294967296 % 4294967296 =
      st.header.seg0.memOffset + 0x100
    omega
  have e2z0 : h2.fsz0 = st.header.seg0.memSize := by
    rw [hh2]
    show st.header.seg0.memSize % 4294967296 = st.header.seg0.memSize
    omega
  have e2o1 : h2.seg1.memOffset = st.header.seg1.memOffset := by
    rw [hh2]
    show st.header.seg1.memOffset % 4294967296 = st.header.seg1.memOffset
    omega
  have e2s1 : h2.seg1.memSize = st.header.seg1.memSize := by
    rw [hh2]
    show st.header.seg1.memSize % 4294967296 = st.header.seg1.memSize
    omega
  have e2f1 : h2.seg1.fileOffset = st.header.seg1.memOffset + 0x100 := by
    rw [hh2]
    show (st.header.seg1.memOffset + 0x100) % 4294967296 % 4294967296 =
      st.header.seg1.memOffset + 0x100
    omega
  have e2z1 : h2.fsz1 = st.header.seg1.memSize := by
    rw [hh2]
    show st.header.seg1.memSize % 4294967296 = st.header.seg1.memSize
    omega
  have e2o2 : h2.seg2.memOffset = st.header.seg2.memOffset := by
    rw [hh2]
    show st.header.seg2.memOffset % 4294967296 = st.header.seg2.memOffset
    omega
  have e2s2 : h2.seg2.memSize = st.header.seg2.memSize := by
    rw [hh2]
    show st.header.seg2.memSize % 4294967296 = st.header.seg2.memSize
    omega
  have e2f2 : h2.seg2.fileOffset = st.header.seg2.memOffset + 0x100 := by
    rw [hh2]
    show (st.header.seg2.memOffset + 0x100) % 4294967296 % 4294967296 =
      st.header.seg2.memOffset + 0x100
    omega
  have e2z2 : h2.fsz2 = st.header.seg2.memSize := by
    rw [hh2]
    show st.header.seg2.memSize % 4294967296 = st.header.seg2.memSize
    omega
  have hbits : ∀ i, i < 3 → h2.flags &&& (1 <<< i) = 0 := by
    intro i hi
    rw [hh2]
    show ((st.header.flags &&& 0xf8) % 4294967296) &&& (1 <<< i) = 0
    rw [Nat.mod_eq_of_lt (Nat.lt_of_le_of_lt Nat.and_le_right (by norm_num))]
    exact flags_masked_bit st.header.flags i hi
  have s0 : procSeg lz4 ob h2 0 zeroBytes =
      some (writeBytes zeroBytes h2.seg0.memOffset ob h2.seg0.fileOffset h2.fsz0) := by
    unfold procSeg
    simp only []
    rw [if_neg (not_not_intro (hbits 0 (by omega)))]
    rfl
  set i0 := writeBytes zeroBytes h2.seg0.memOffset ob h2.seg0.fileOffset h2.fsz0 with hi0
  have s1 : procSeg lz4 ob h2 1 i0 =
      some (writeBytes i0 h2.seg1.memOffset ob h2.seg1.fileOffset h2.fsz1) := by
    unfold procSeg
    simp only []
    rw [if_neg (not_not_intro (hbits 1 (by omega)))]
    rfl
  set i1 := writeBytes i0 h2.seg1.memOffset ob h2.seg1.fileOffset h2.fsz1 with hi1
  have s2 : procSeg lz4 ob h2 2 i1 =
      some (writeBytes i1 h2.seg2.memOffset ob h2.seg2.fileOffset h2.fsz2) := by
    unfold procSeg
    simp only []
    rw [if_neg (not_not_intro (hbits 2 (by omega)))]
    rfl
  set i2 := writeBytes i1 h2.seg2.memOffset ob h2.seg2.fileOffset h2.fsz2 with hi2
  have hps : procSegs lz4 ob h2 zeroBytes [0, 1, 2] = some i2 := by
    simp only [procSegs]
    rw [s0]
    show procSegs lz4 ob h2 i0 [1, 2] = some i2
    simp only [procSegs]
    rw [s1]
    show procSegs lz4 ob h2 i1 [2] = some i2
    simp only [procSegs]
    rw [s2]
  have hchain : loadFile lz4 ob (writeUncompressedNso st).2 =
      loadRest kNso h2 i2 (h2.seg2.memOffset + h2.seg2.memSize + h2.seg2.bssAlign) := by
    unfold loadFile
    rw [if_pos ⟨by omega, hmag2⟩]
    simp only []
    rw [hparse, hps]
  rw [e2o0, e2f0, e2z0] at hi0
  rw [e2o1, e2f1, e2z1] at hi1
  rw [e2o2, e2f2, e2z2] at hi2
  have hib : ∀ j, j < isz1 → i2 j = st.image j % 256 := by
    intro j hj
    rw [hi2]
    by_cases c2 : st.header.seg2.memOffset ≤ j
    · rw [writeBytes_inside _ _ _ _ _ _ c2 (by omega)]
      rw [hbyte (st.header.seg2.memOffset + 0x100 + (j - st.header.seg2.memOffset))]
      rw [if_neg (by omega), if_pos (by omega)]
      rw [show st.header.seg2.memOffset + 0x100 + (j - st.header.seg2.memOffset) - 0x100 = j
        from by omega]
      omega
    · rw [writeBytes_outside _ _ _ _ _ _ (by omega)]
      rw [hi1]
      by_cases c1 : st.header.seg1.memOffset ≤ j ∧
          j < st.header.seg1.memOffset + st.header.seg1.memSize
      · rw [writeBytes_inside _ _ _ _ _ _ c1.1 (by omega)]
        rw [hbyte (st.header.seg1.memOffset + 0x100 + (j - st.header.seg1.memOffset))]
        rw [if_neg (by omega), if_pos (by omega)]
        rw [show st.header.seg1.memOffset + 0x100 + (j - st.header.seg1.memOffset) - 0x100 = j
          from by omega]
        omega
      · rw [writeBytes_outside _ _ _ _ _ _ (by omega)]
        rw [hi0]
        by_cases c0 : j < st.header.seg0.memSize
        · rw [writeBytes_inside _ _ _ _ _ _ (by omega) (by omega)]
          rw [hbyte (st.header.seg0.memOffset + 0x100 + (j - 0))]
          rw [if_neg (by omega), if_pos (by omega)]
          rw [show st.header.seg0.memOffset + 0x100 + (j - 0) - 0x100 = j from by omega]
          omega
        · rw [writeBytes_outside _ _ _ _ _ _ (by omega)]
          rw [hgap j (by omega) (by omega) (by omega) (by omega)]
          rfl
  have hr4 : readU32 i2 4 = readU32 st.image 4 := by
    unfold readU32 readU8
    norm_num
    rw [hib 4 (by omega), hib 5 (by omega), hib 6 (by omega), hib 7 (by omega)]
    omega
  have hmm2 : ∀ x, x < isz1 → readU8 i2 x = readU8 st.image x := by
    intro x hx
    unfold readU8
    rw [hib x hx]
    omega
  have hsucc : (loadRest kNso h2 i2
      (h2.seg2.memOffset + h2.seg2.memSize + h2.seg2.bssAlign)).isSome = true := by
    apply loadRest_nso_isSome
    · rw [hr4, e2o2, e2s2]
      omega
    · rw [hr4]
      unfold isModMagic at hchk2 ⊢
      rw [hmm2 _ (by omega), hmm2 _ (by omega), hmm2 _ (by omega), hmm2 _ (by omega)]
      exact hchk2
  obtain ⟨st2, hst2⟩ := Option.isSome_iff_exists.mp hsucc
  have hld2 : loadFile lz4 ob (writeUncompressedNso st).2 = some st2 := by
    rw [hchain, hst2]
  obtain ⟨h2h, h2i, h2sz, hca, hcb⟩ := loadRest_nso_inv _ _ _ _ hst2
  have hG2 : (loadFile lz4 ob (writeUncompressedNso st).2).getD default = st2 := by
    rw [hld2]
    rfl
  have htr2 : transformHdr st2.header = normalizeHdr (transformHdr st.header) := by
    rw [h2h, hh2, transform_normalize, transformHdr_idem]
  have hisz2e : ((transformHdr st2.header).seg2.memOffset +
      (transformHdr st2.header).seg2.memSize) % 4294967296 = isz1 := by
    rw [htr2]
    show (st.header.seg2.memOffset % 4294967296 + st.header.seg2.memSize % 4294967296) %
      4294967296 = isz1
    omega
  refine ⟨?_, ?_, ?_⟩
  · rw [hld2]
    rfl
  · rw [hG2]
    show 0x100 + ((transformHdr st2.header).seg2.memOffset +
        (transformHdr st2.header).seg2.memSize) % 4294967296 = (writeUncompressedNso st).2
    rw [hisz2e, hosz]
  · intro j hj
    rw [hosz] at hj
    rw [hG2]
    have hb2 : (writeUncompressedNso st2).1 j =
        if j < 0x100 then serializeNsoHeader (transformHdr st2.header) j
        else if j < 0x100 + ((transformHdr st2.header).seg2.memOffset +
            (transformHdr st2.header).seg2.memSize) % 4294967296 then
          st2.image (j - 0x100) % 256
        else 0 := rfl
    rw [hb2, hisz2e]
    by_cases hjh : j < 0x100
    · rw [if_pos hjh, htr2, serialize_normalize, hbyte j, if_pos hjh]
    · rw [if_neg hjh, if_pos (by omega), h2i]
      rw [hib (j - 0x100) (by omega)]
      rw [hbyte j, if_neg hjh, if_pos (by omega)]
      omega

/-- A 0x150-byte uncompressed NSO with contiguous gap-free segments
(text `[0,0x30)`, rodata `[0x30,0x40)`, data `[0x40,0x50)`), a MOD
header at image offset 8 and an empty dynamic table at image offset
0x30. -/
def fileC9w : Bytes :=
  bytesOf
    [(1, 0, 78), (1, 1, 83), (1, 2, 79), (1, 3, 48),
     (4, 0x10, 0x100), (4, 0x14, 0), (4, 0x18, 0x30), (4, 0x1c, 0),
     (4, 0x20, 0x130), (4, 0x24, 0x30), (4, 0x28, 0x10), (4, 0x2c, 1),
     (4, 0x30, 0x140), (4, 0x34, 0x40), (4, 0x38, 0x10), (4, 0x3c, 0x10),
     (4, 0x60, 0x30), (4, 0x64, 0x10), (4, 0x68, 0x10),
     (4, 0x104, 8),
     (1, 0x108, 77), (1, 0x109, 79), (1, 0x10a, 68), (1, 0x10b, 48),
     (4, 0x10c, 0x28)]

/-- Witness for the amended C9 at the concrete NSO `fileC9w`. -/
theorem c9_witness :
    (loadFile lz4fail fileC9w 0x150).isSome = true ∧
    (loadFile lz4fail (c9Out1 lz4fail fileC9w 0x150).1
      (c9Out1 lz4fail fileC9w 0x150).2).isSome = true ∧
    (writeUncompressedNso ((loadFile lz4fail (c9Out1 lz4fail fileC9w 0x150).1
        (c9Out1 lz4fail fileC9w 0x150).2).getD default)).2 =
      (c9Out1 lz4fail fileC9w 0x150).2 := by
  have h := c9_write_idempotent lz4fail fileC9w 0x150 (by decide) (by decide) (by decide)
    (by decide) (by decide) (by decide) (by decide) (by decide) (by decide)
  exact ⟨by decide, h.1, h.2.1⟩
